import Mathlib

/-!
Verification of the hrl-tracking-app server against its specification.

The definitions below are a shallow embedding of the main server variant
(the Fastify + Supabase + Redis service, src/unnamed/part_007) together
with the pg-pool variant (src/apps/api/src/index.ts) where a claim cites
it.  Database tables are lists of rows, the Redis presence sorted set is
an association list from member to score, and every handler is a pure
function from the request plus the current time to a reply and the new
store state.  Times are modelled as Int (milliseconds, or seconds for
presence scores), matching the JavaScript number arithmetic on integral
timestamps.
-/

namespace HrlTracking

/-! ### Constants (src/unnamed/part_007) -/

/-- ACTIVE_WINDOW_SEC = 30, the presence sliding window in seconds. -/
def ACTIVE_WINDOW_SEC : Int := 30

/-- Clock-skew tolerance used in both collect endpoints: 5 * 60 * 1000 ms. -/
def TS_TOLERANCE_MS : Int := 5 * 60 * 1000

/-- Staleness threshold of the leader-tab lease: 30000 ms. -/
def LEADER_STALE_MS : Int := 30000

/-- SHOP_RE = an anchored character-class pattern over letters (the regex has
the i flag), digits, dot and hyphen, with length between 3 and 255
(src/unnamed/part_007 line 100). -/
def shopRe (s : String) : Bool :=
  decide (3 ≤ s.length) && decide (s.length ≤ 255) &&
    s.data.all (fun c => c.isAlpha || c.isDigit || c == '.' || c == '-')

/-- JavaScript coercion x || null on a string value: the empty string is falsy
and becomes null. -/
def jsStringOrNone (s : String) : Option String :=
  if s.isEmpty then none else some s

/-! ### Clock-skew defense (C6)

Both POST /collect (part_007 lines 1393-1396) and POST /app-proxy/collect
(lines 1596-1599) compute
  tsMs = (typeof body.ts === number and Math.abs(nowMs - body.ts) <= 5*60*1000)
           ? body.ts : nowMs. -/

/-- Timestamp selection of the collect endpoints: keep the client timestamp
only when it is within the 5-minute tolerance of server time. -/
def clampTs (nowMs : Int) (ts : Option Int) : Int :=
  match ts with
  | some t => if |nowMs - t| ≤ TS_TOLERANCE_MS then t else nowMs
  | none => nowMs

/-- C6: if the client-supplied timestamp deviates from server time by more
than 5 minutes in either direction, the server substitutes its own current
time; a deviation within 5 minutes keeps the client timestamp; a missing
timestamp also yields server time. -/
theorem clampTs_clock_skew (nowMs t : Int) :
    (TS_TOLERANCE_MS < |nowMs - t| → clampTs nowMs (some t) = nowMs) ∧
    (|nowMs - t| ≤ TS_TOLERANCE_MS → clampTs nowMs (some t) = t) ∧
    clampTs nowMs none = nowMs := by
  refine ⟨fun h => ?_, fun h => ?_, rfl⟩
  · show (if |nowMs - t| ≤ TS_TOLERANCE_MS then t else nowMs) = nowMs
    rw [if_neg (not_le.mpr h)]
  · show (if |nowMs - t| ≤ TS_TOLERANCE_MS then t else nowMs) = t
    rw [if_pos h]

/-- Witness for C6: a client timestamp one hour in the future is replaced by
server time, and a client timestamp 10 seconds off is kept. -/
theorem clampTs_clock_skew_witness :
    (TS_TOLERANCE_MS < |(1700000000000 : Int) - (1700000000000 + 3600000)| ∧
      clampTs 1700000000000 (some (1700000000000 + 3600000)) = 1700000000000) ∧
    (|(1700000000000 : Int) - (1700000000000 - 10000)| ≤ TS_TOLERANCE_MS ∧
      clampTs 1700000000000 (some (1700000000000 - 10000)) = 1700000000000 - 10000) :=
  ⟨⟨by decide, (clampTs_clock_skew 1700000000000 (1700000000000 + 3600000)).1 (by decide)⟩,
   ⟨by decide, (clampTs_clock_skew 1700000000000 (1700000000000 - 10000)).2.1 (by decide)⟩⟩

/-! ### Presence store (Redis sorted set per shop)

POST /presence/beat (part_007 lines 1156-1185) does
  zadd presence:shop serverNowSec session_id; expire presence:shop 300.
GET /app-proxy/presence (lines 1531-1544) does
  zremrangebyscore presence:shop 0 (now - ACTIVE_WINDOW_SEC);
  zcount presence:shop (now - ACTIVE_WINDOW_SEC) +inf.
The sorted set is modelled as an association list member ↦ score; the
coarse 300 s TTL on the whole key is outside the claims and not modelled. -/

/-- One shop's presence sorted set: member (session id) paired with its score
(last heartbeat time in seconds). -/
abbrev ZSet := List (String × Int)

/-- Redis ZADD: update the member's score if present, else append it. -/
def zadd (s : ZSet) (member : String) (score : Int) : ZSet :=
  if s.any (fun p => p.1 == member) then
    s.map (fun p => if p.1 == member then (p.1, score) else p)
  else s ++ [(member, score)]

/-- Redis ZREMRANGEBYSCORE key lo hi: drop members whose score lies in the
closed interval between lo and hi. -/
def zremrangebyscore (s : ZSet) (lo hi : Int) : ZSet :=
  s.filter (fun p => !(decide (lo ≤ p.2) && decide (p.2 ≤ hi)))

/-- Redis ZCOUNT key lo +inf: the number of members with score at least lo. -/
def zcountFrom (s : ZSet) (lo : Int) : Nat :=
  (s.filter (fun p => decide (lo ≤ p.2))).length

/-- Eviction step of the presence read path: remove entries with score in
the interval from 0 to now - w. -/
def presenceEvict (s : ZSet) (now w : Int) : ZSet :=
  zremrangebyscore s 0 (now - w)

/-- Count step of the presence read path, executed after eviction. -/
def presenceCount (s : ZSet) (now w : Int) : Nat :=
  zcountFrom (presenceEvict s now w) (now - w)

/-- Whether a given session is among the entries counted by the read path:
it survives eviction and its score is at least now - w. -/
def presenceIncludes (s : ZSet) (sid : String) (now w : Int) : Bool :=
  (presenceEvict s now w).any (fun p => p.1 == sid && decide (now - w ≤ p.2))

theorem mem_zadd_self (s : ZSet) (sid : String) (T : Int) : (sid, T) ∈ zadd s sid T := by
  unfold zadd
  by_cases h : s.any (fun p => p.1 == sid) = true
  · rw [if_pos h]
    obtain ⟨p, hp, hkey⟩ := List.any_eq_true.mp h
    refine List.mem_map.mpr ⟨p, hp, ?_⟩
    rw [if_pos hkey]
    exact congrArg (fun x => (x, T)) (eq_of_beq hkey)
  · rw [if_neg h]
    exact List.mem_append_right s (List.mem_singleton.mpr rfl)

theorem eq_of_mem_zadd_key (s : ZSet) (sid : String) (T : Int) (q : String × Int)
    (hq : q ∈ zadd s sid T) (hkey : q.1 = sid) : q = (sid, T) := by
  unfold zadd at hq
  by_cases h : s.any (fun p => p.1 == sid) = true
  · rw [if_pos h] at hq
    obtain ⟨p, _, himg⟩ := List.mem_map.mp hq
    by_cases hp : (p.1 == sid) = true
    · rw [if_pos hp] at himg
      rw [← himg, eq_of_beq hp]
    · rw [if_neg hp] at himg
      exact absurd (beq_iff_eq.mpr (himg ▸ hkey)) hp
  · rw [if_neg h] at hq
    rcases List.mem_append.mp hq with hmem | hlast
    · exact absurd (List.any_eq_true.mpr ⟨q, hmem, show (q.1 == sid) = true by simp [hkey]⟩) h
    · cases List.mem_singleton.mp hlast
      rfl

/-- C3: if a heartbeat for a session is recorded at time T (score T via ZADD),
then the evict-then-count read executed at any time now with T ≤ now < T + w
still includes that session, and a read at or after T + w excludes it.  The
read first evicts entries with score at or below now - w and then counts the
remainder. -/
theorem presence_window (s : ZSet) (sid : String) (T w : Int) (hT : 0 ≤ T) :
    (∀ now : Int, T ≤ now → now < T + w →
      presenceIncludes (zadd s sid T) sid now w = true ∧
      1 ≤ presenceCount (zadd s sid T) now w) ∧
    (∀ now : Int, T + w ≤ now → presenceIncludes (zadd s sid T) sid now w = false) := by
  constructor
  · intro now _ hlt
    have hTgt : now - w < T := by omega
    have hmemEv : (sid, T) ∈ presenceEvict (zadd s sid T) now w := by
      unfold presenceEvict zremrangebyscore
      refine List.mem_filter.mpr ⟨mem_zadd_self s sid T, ?_⟩
      simp only [Bool.not_eq_true']
      exact Bool.and_eq_false_iff.mpr (Or.inr (by simpa using not_le.mpr hTgt))
    constructor
    · unfold presenceIncludes
      exact List.any_eq_true.mpr ⟨(sid, T), hmemEv, by
        simp only [Bool.and_eq_true, beq_self_eq_true, decide_eq_true_eq, true_and]
        omega⟩
    · unfold presenceCount zcountFrom
      have : (sid, T) ∈ (presenceEvict (zadd s sid T) now w).filter
          (fun p => decide (now - w ≤ p.2)) := by
        refine List.mem_filter.mpr ⟨hmemEv, by simp only [decide_eq_true_eq]; omega⟩
      exact List.length_pos.mpr (List.ne_nil_of_mem this)
  · intro now hge
    unfold presenceIncludes
    rw [Bool.eq_false_iff]
    intro hany
    obtain ⟨q, hqmem, hqp⟩ := List.any_eq_true.mp hany
    have hqp' : (q.1 == sid) = true ∧ decide (now - w ≤ q.2) = true := by
      simpa [Bool.and_eq_true] using hqp
    have hqkey : q.1 = sid := eq_of_beq hqp'.1
    have hqEv := (List.mem_filter.mp hqmem).1
    have hq : q = (sid, T) := eq_of_mem_zadd_key s sid T q hqEv hqkey
    have hpred := (List.mem_filter.mp hqmem).2
    rw [hq] at hpred
    simp only [Bool.not_eq_true', Bool.and_eq_false_iff, decide_eq_false_iff_not, not_le] at hpred
    rcases hpred with h0 | hhi
    · exact absurd hT (not_le.mpr h0)
    · omega

/-- Witness for C3: with the real window of 30 s, a beat at T = 100 is counted
at now = 120 and no longer counted at now = 130. -/
theorem presence_window_witness :
    ((0 : Int) ≤ 100 ∧ (100 : Int) ≤ 120 ∧ (120 : Int) < 100 + ACTIVE_WINDOW_SEC ∧
      presenceIncludes (zadd [] "abc" 100) "abc" 120 ACTIVE_WINDOW_SEC = true ∧
      1 ≤ presenceCount (zadd [] "abc" 100) 120 ACTIVE_WINDOW_SEC) ∧
    ((100 : Int) + ACTIVE_WINDOW_SEC ≤ 130 ∧
      presenceIncludes (zadd [] "abc" 100) "abc" 130 ACTIVE_WINDOW_SEC = false) :=
  ⟨⟨by decide, by decide, by decide,
    ((presence_window [] "abc" 100 ACTIVE_WINDOW_SEC (by decide)).1 120 (by decide) (by decide)).1,
    ((presence_window [] "abc" 100 ACTIVE_WINDOW_SEC (by decide)).1 120 (by decide) (by decide)).2⟩,
   ⟨by decide,
    (presence_window [] "abc" 100 ACTIVE_WINDOW_SEC (by decide)).2 130 (by decide)⟩⟩

/-! ### POST /presence/beat (C10), part_007 lines 1156-1185 -/

/-- Redis keyspace: key presence:shop mapped to that shop's sorted set. -/
abbrev PresenceStore := List (String × ZSet)

/-- Read the sorted set stored under one shop's key (empty if absent). -/
def storeGet (st : PresenceStore) (shop : String) : ZSet :=
  match st.find? (fun p => p.1 == shop) with
  | some p => p.2
  | none => []

/-- Replace the sorted set stored under one shop's key. -/
def storeSet (st : PresenceStore) (shop : String) (z : ZSet) : PresenceStore :=
  if st.any (fun p => p.1 == shop) then
    st.map (fun p => if p.1 == shop then (p.1, z) else p)
  else st ++ [(shop, z)]

/-- Hexadecimal digit, as accepted by a UUID pattern with the i flag. -/
def isHexDigit (c : Char) : Bool :=
  c.isDigit || ('a' ≤ c && c ≤ 'f') || ('A' ≤ c && c ≤ 'F')

/-- Split a character list on a separator character (the groups between the
separators, in order). -/
def splitOnChar (c : Char) : List Char → List (List Char)
  | [] => [[]]
  | x :: xs =>
      if x == c then [] :: splitOnChar c xs
      else
        match splitOnChar c xs with
        | [] => [[x]]
        | g :: gs => (x :: g) :: gs

/-- Shape check behind z.string().uuid(): five hyphen-separated hex groups of
lengths 8, 4, 4, 4 and 12. -/
def isUuidLike (s : String) : Bool :=
  let gs := splitOnChar '-' s.data
  (gs.map List.length == [8, 4, 4, 4, 12]) && gs.all (fun g => g.all isHexDigit)

/-- Body of POST /presence/beat: shop, session_id, optional ts. -/
structure BeatBody where
  shop : String
  session_id : String
  ts : Option Int
deriving Repr, DecidableEq

/-- Zod schema of /presence/beat: shop min 1 max 255, session_id uuid,
ts positive when present. -/
def beatZodOk (b : BeatBody) : Bool :=
  decide (1 ≤ b.shop.length) && decide (b.shop.length ≤ 255) &&
    isUuidLike b.session_id &&
    (match b.ts with
     | some t => decide (0 < t)
     | none => true)

/-- Replies of /presence/beat; the no-redis degraded branch is not modelled
(redis is assumed configured). -/
inductive BeatReply
  | parseFailed
  | invalidShop
  | ok
deriving Repr, DecidableEq

/-- POST /presence/beat: validate, then zadd the session under the shop's key
with score Math.floor(Date.now() / 1000).  The client ts field is validated
but never stored. -/
def presenceBeat (b : BeatBody) (nowMs : Int) (st : PresenceStore) :
    BeatReply × PresenceStore :=
  if beatZodOk b = false then (.parseFailed, st)
  else if shopRe b.shop = false then (.invalidShop, st)
  else (.ok, storeSet st b.shop (zadd (storeGet st b.shop) b.session_id (Int.fdiv nowMs 1000)))

theorem storeSet_cons_ne (p : String × ZSet) (st : PresenceStore) (shop : String)
    (z : ZSet) (hne : (p.1 == shop) = false) :
    storeSet (p :: st) shop z = p :: storeSet st shop z := by
  have hcond : ¬ ((p.1 == shop) = true) := by simp [hne]
  unfold storeSet
  by_cases h : st.any (fun q => q.1 == shop) = true
  · rw [if_pos (by simp [List.any_cons, h]), if_pos h]
    simp only [List.map_cons]
    rw [if_neg hcond]
  · rw [if_neg (by simp [List.any_cons, hne, h]), if_neg h]
    simp

theorem storeGet_storeSet (st : PresenceStore) (shop : String) (z : ZSet) :
    storeGet (storeSet st shop z) shop = z := by
  induction st with
  | nil => simp [storeSet, storeGet]
  | cons p st ih =>
      by_cases hp : (p.1 == shop) = true
      · unfold storeSet
        rw [if_pos (by simp [List.any_cons, hp])]
        simp only [List.map_cons, if_pos hp]
        unfold storeGet
        simp [List.find?_cons, hp]
      · rw [storeSet_cons_ne p st shop z (by simpa using hp)]
        unfold storeGet
        rw [List.find?_cons_of_neg _ (by simpa using hp)]
        exact ih

theorem presenceBeat_accepted (b : BeatBody) (nowMs : Int) (st : PresenceStore)
    (hzod : beatZodOk b = true) (hshop : shopRe b.shop = true) :
    presenceBeat b nowMs st =
      (.ok, storeSet st b.shop (zadd (storeGet st b.shop) b.session_id (Int.fdiv nowMs 1000))) := by
  unfold presenceBeat
  rw [if_neg (by simp [hzod]), if_neg (by simp [hshop])]

/-- C10: for every accepted heartbeat, the score stored for the session in the
shop's presence set is the server's current time in seconds (floor of
nowMs / 1000); the validated client ts is never used, so two accepted beats
that differ only in ts produce identical replies and stores. -/
theorem presence_beat_server_time (b : BeatBody) (nowMs : Int) (st : PresenceStore)
    (hzod : beatZodOk b = true) (hshop : shopRe b.shop = true) :
    ((b.session_id, Int.fdiv nowMs 1000) ∈ storeGet (presenceBeat b nowMs st).2 b.shop ∧
      ∀ q ∈ storeGet (presenceBeat b nowMs st).2 b.shop,
        q.1 = b.session_id → q.2 = Int.fdiv nowMs 1000) ∧
    ∀ ts1 ts2 : Option Int,
      beatZodOk { b with ts := ts1 } = true →
      beatZodOk { b with ts := ts2 } = true →
      presenceBeat { b with ts := ts1 } nowMs st = presenceBeat { b with ts := ts2 } nowMs st := by
  constructor
  · have hred : (presenceBeat b nowMs st).2 =
        storeSet st b.shop (zadd (storeGet st b.shop) b.session_id (Int.fdiv nowMs 1000)) :=
      congrArg Prod.snd (presenceBeat_accepted b nowMs st hzod hshop)
    rw [hred, storeGet_storeSet]
    exact ⟨mem_zadd_self _ _ _, fun q hq hkey =>
      congrArg Prod.snd (eq_of_mem_zadd_key _ _ _ q hq hkey)⟩
  · intro ts1 ts2 h1 h2
    rw [presenceBeat_accepted { b with ts := ts1 } nowMs st h1 hshop,
      presenceBeat_accepted { b with ts := ts2 } nowMs st h2 hshop]

/-- Concrete beat body used by the C10 witness: a valid shop and uuid session
with a client ts one hour ahead of server time. -/
def beatWitnessBody : BeatBody :=
  { shop := "s.myshopify.com"
    session_id := "01234567-89ab-cdef-0123-456789abcdef"
    ts := some 1700003600000 }

/-- Witness for C10: a concrete accepted beat whose client ts (one hour ahead)
is ignored; the stored score is the floor of the server millisecond clock. -/
theorem presence_beat_server_time_witness :
    beatZodOk beatWitnessBody = true ∧
    shopRe beatWitnessBody.shop = true ∧
    ((beatWitnessBody.session_id, Int.fdiv 1700000000000 1000) ∈
      storeGet (presenceBeat beatWitnessBody 1700000000000 []).2 beatWitnessBody.shop) := by
  refine ⟨by decide, by decide, ?_⟩
  exact (presence_beat_server_time beatWitnessBody 1700000000000 []
    (by decide) (by decide)).1.1

/-! ### GET /app-proxy/presence conditional response (C7), part_007 lines 1531-1557

The handler builds payload = (current, display = current, ts = Date.now()),
computes the ETag over the payload WITHOUT ts
  (etagPayload = (current, display); etag = sha1(stringify(etagPayload))),
and returns 304 when the If-None-Match header equals the ETag.  The hash is
modelled by the fingerprint data itself; since the code applies a fixed
deterministic hash to exactly these fields, equality of fingerprints below
corresponds to equality of ETags in the code. -/

/-- Response payload of GET /app-proxy/presence. -/
structure PresencePayload where
  current : Nat
  display : Nat
  ts : Int
deriving Repr, DecidableEq

/-- Data the ETag is computed from: current and display only, no ts. -/
structure EtagData where
  current : Nat
  display : Nat
deriving Repr, DecidableEq

/-- Fingerprint of a presence response: built from the payload dropping ts. -/
def etagOf (current display : Nat) : EtagData :=
  { current := current, display := display }

/-- Reply of the presence polling endpoint: 304 without a body, or the payload
with its ETag. -/
inductive PresenceReply
  | notModified
  | payload (p : PresencePayload) (etag : EtagData)
deriving Repr, DecidableEq

/-- GET /app-proxy/presence response construction after the count has been
read: 304 when If-None-Match matches the ts-free fingerprint, else the body. -/
def presencePollReply (current : Nat) (nowMs : Int) (inm : Option EtagData) :
    PresenceReply :=
  let etag := etagOf current current
  match inm with
  | some e => if e = etag then .notModified else .payload ⟨current, current, nowMs⟩ etag
  | none => .payload ⟨current, current, nowMs⟩ etag

/-- ETag carried by a reply, if it has a body. -/
def PresenceReply.etagPart : PresenceReply → Option EtagData
  | .notModified => none
  | .payload _ e => some e

/-- C7: the polling endpoint's fingerprint is computed from current and
display only, excluding ts: replies for the same count at different server
times carry identical ETags, and a request presenting that fingerprint in
If-None-Match receives the 304 not-modified reply instead of a body. -/
theorem presence_etag_excludes_ts (current : Nat) :
    (∀ t1 t2 : Int, ∀ inm : Option EtagData,
      (presencePollReply current t1 inm).etagPart =
        (presencePollReply current t2 inm).etagPart) ∧
    (∀ t : Int, presencePollReply current t (some (etagOf current current)) =
      .notModified) := by
  constructor
  · intro t1 t2 inm
    cases inm with
    | none => rfl
    | some e =>
        by_cases h : e = etagOf current current
        · simp only [presencePollReply, if_pos h]
        · simp only [presencePollReply, if_neg h]
          rfl
  · intro t
    simp [presencePollReply]

/-! ### Database model (src/db/migrations.sql + src/unnamed/part_000)

Tables are lists of rows.  The uuid primary keys of shops rows are modelled
as Nat; the jsonb payload column carries no claim and is omitted. -/

/-- Row of the shops table. -/
structure ShopRow where
  id : Nat
  domain : String
deriving Repr, DecidableEq

/-- Row of the sessions table. -/
structure SessionRow where
  id : String
  shop_id : Nat
  visitor_id : Option String
  first_seen : Int
  last_seen : Int
  ip : Option String
  ua : Option String
  referrer : Option String
deriving Repr, DecidableEq

/-- Row of the events table (payload jsonb omitted). -/
structure EventRow where
  shop_id : Nat
  session_id : String
  name : String
  ts : Int
  page_path : Option String
  event_id : Option String
deriving Repr, DecidableEq

/-- Row of the page_views table. -/
structure PageViewRow where
  shop_id : Nat
  session_id : String
  path : String
  title : String
  engaged_ms : Option Int
  ts : Int
deriving Repr, DecidableEq

/-- The four tables of the persisted schema. -/
structure Db where
  shops : List ShopRow
  sessions : List SessionRow
  events : List EventRow
  page_views : List PageViewRow
deriving Repr, DecidableEq

/-! ### Atomic statements issued by the collect handlers (part_007) -/

/-- Supabase shops upsert on conflict domain returning id
(part_007 lines 1620-1624): reuse the existing row's id, else insert a row
under a fresh id. -/
def shopsUpsert (tbl : List ShopRow) (domain : String) (freshId : Nat) :
    List ShopRow × Nat :=
  match tbl.find? (fun r => r.domain == domain) with
  | some r => (tbl, r.id)
  | none => (tbl ++ [{ id := freshId, domain := domain }], freshId)

/-- Supabase sessions update (part_007 lines 1666-1676): set last_seen, ip,
ua and referrer on every row with the given id, and report via the selected
row whether any row was affected. -/
def sessionsUpdateMeta (tbl : List SessionRow) (sid : String) (ts : Int)
    (ip ua ref : Option String) : List SessionRow × Bool :=
  (tbl.map (fun r =>
     if r.id == sid then { r with last_seen := ts, ip := ip, ua := ua, referrer := ref }
     else r),
   tbl.any (fun r => r.id == sid))

/-- Supabase sessions insert (part_007 lines 1683-1692): fails on a duplicate
primary key, leaving the table unchanged; the Bool is the error flag. -/
def sessionsInsert (tbl : List SessionRow) (row : SessionRow) :
    List SessionRow × Bool :=
  if tbl.any (fun r => r.id == row.id) then (tbl, true)
  else (tbl ++ [row], false)

/-- Fallback update after a lost insert race (part_007 lines 1698-1700):
set last_seen only. -/
def sessionsUpdateLastSeen (tbl : List SessionRow) (sid : String) (ts : Int) :
    List SessionRow :=
  tbl.map (fun r => if r.id == sid then { r with last_seen := ts } else r)

/-- Session upsert of POST /app-proxy/collect and POST /collect, in source
order: update first (without touching first_seen); if no row was affected,
insert with first_seen = last_seen = ts; if the insert errors (lost race),
fall back to updating last_seen. -/
def collectSession (tbl : List SessionRow) (shopId : Nat) (sid : String)
    (visitorId : Option String) (ts : Int) (ip ua ref : Option String) :
    List SessionRow :=
  match sessionsUpdateMeta tbl sid ts ip ua ref with
  | (tbl1, true) => tbl1
  | (tbl1, false) =>
      match sessionsInsert tbl1
        { id := sid, shop_id := shopId, visitor_id := visitorId,
          first_seen := ts, last_seen := ts, ip := ip, ua := ua, referrer := ref } with
      | (tbl2, true) => sessionsUpdateLastSeen tbl2 sid ts
      | (tbl2, false) => tbl2

/-- Dedup key of the events table: the pair (shop_id, event_id), backed by the
partial unique index events_shop_event_id_uniq (src/unnamed/part_001). -/
def eventKey (r : EventRow) (shopId : Nat) (eid : String) : Bool :=
  r.shop_id == shopId && r.event_id == some eid

/-- Event write of the collect handlers (part_007 lines 1724-1726): upsert on
conflict of (shop_id, event_id) when event_id is present (the conflicting row
is overwritten, no new row appears), plain insert when absent. -/
def eventsWrite (tbl : List EventRow) (row : EventRow) : List EventRow :=
  match row.event_id with
  | some eid =>
      if tbl.any (fun r => eventKey r row.shop_id eid) then
        tbl.map (fun r => if eventKey r row.shop_id eid then row else r)
      else tbl ++ [row]
  | none => tbl ++ [row]

/-- Number of stored event rows carrying a given (shop_id, event_id) pair. -/
def eventsCount (tbl : List EventRow) (shopId : Nat) (eid : String) : Nat :=
  (tbl.filter (fun r => eventKey r shopId eid)).length

/-! ### POST /app-proxy/collect (part_007 lines 1565-1782) -/

/-- Page context of a collect body. -/
structure PageInfo where
  path : Option String
  title : Option String
  ref : Option String
deriving Repr, DecidableEq

/-- Body of the collect endpoints. -/
structure CollectBody where
  event : String
  ts : Option Int
  session_id : String
  visitor_id : Option String
  shop_domain : String
  page : Option PageInfo
  duration_ms : Option Int
  event_id : Option String
deriving Repr, DecidableEq

/-- Zod schema of POST /app-proxy/collect (part_007 lines 1573-1587): bounds
on every string field, positive ts, nonnegative duration. -/
def collectZodOk (b : CollectBody) : Bool :=
  decide (1 ≤ b.event.length) && decide (b.event.length ≤ 100) &&
  (match b.ts with | some t => decide (0 < t) | none => true) &&
  decide (1 ≤ b.session_id.length) && decide (b.session_id.length ≤ 255) &&
  (match b.visitor_id with
   | some v => decide (1 ≤ v.length) && decide (v.length ≤ 255)
   | none => true) &&
  decide (1 ≤ b.shop_domain.length) && decide (b.shop_domain.length ≤ 255) &&
  (match b.page with
   | some p =>
       (match p.path with | some s => decide (s.length ≤ 1000) | none => true) &&
       (match p.title with | some s => decide (s.length ≤ 500) | none => true) &&
       (match p.ref with | some s => decide (s.length ≤ 1000) | none => true)
   | none => true) &&
  (match b.duration_ms with | some d => decide (0 ≤ d) | none => true) &&
  (match b.event_id with | some e => decide (e.length ≤ 100) | none => true)

/-- Request headers used by the handler: x-forwarded-for (coerced to the
empty string when absent), user-agent, and req.ip. -/
structure RequestMeta where
  xForwardedFor : String
  userAgent : Option String
  reqIp : Option String
deriving Repr, DecidableEq

/-- Client ip as computed by the handler:
(x-forwarded-for or empty).split(comma)[0] or req.ip or null. -/
def headerIp (m : RequestMeta) : Option String :=
  match jsStringOrNone (String.mk ((splitOnChar ',' m.xForwardedFor.data).headD [])) with
  | some s => some s
  | none => m.reqIp

/-- Reply of POST /app-proxy/collect.  The 500 paths (supabase errors) and the
degraded no-supabase path do not occur in this pure model; the 401 tracking-key
branch only fires when the optional header is sent and is not modelled. -/
inductive CollectReply
  | badRequest
  | ok
deriving Repr, DecidableEq

/-- Accepted-path database effect of POST /app-proxy/collect: clamp the
timestamp, upsert the shop by domain, run the session update-then-insert,
write the event (deduplicated on (shop_id, event_id) when an event_id is
present), and append a page_views row for page_view events. -/
def collectApply (b : CollectBody) (m : RequestMeta) (nowMs : Int)
    (freshShopId : Nat) (db : Db) : Db :=
    let tsMs := clampTs nowMs b.ts
    let sr := shopsUpsert db.shops b.shop_domain freshShopId
    let shopId := sr.2
    let ip := headerIp m
    let ua := m.userAgent.bind jsStringOrNone
    let ref := (b.page.bind PageInfo.ref).bind jsStringOrNone
    let sessions2 := collectSession db.sessions shopId b.session_id
      (b.visitor_id.bind jsStringOrNone) tsMs ip ua ref
    let events2 := eventsWrite db.events
      { shop_id := shopId, session_id := b.session_id, name := b.event, ts := tsMs,
        page_path := (b.page.bind PageInfo.path).bind jsStringOrNone,
        event_id := b.event_id.bind jsStringOrNone }
    let pvs2 :=
      if b.event == "page_view" then
        db.page_views ++
          [{ shop_id := shopId, session_id := b.session_id,
             path := (((b.page.bind PageInfo.path).bind jsStringOrNone).getD "/"),
             title := ((b.page.bind PageInfo.title).bind jsStringOrNone).getD "",
             engaged_ms := match b.duration_ms with
               | some d => if d == 0 then none else some (max 0 d)
               | none => none,
             ts := tsMs }]
      else db.page_views
    { shops := sr.1, sessions := sessions2, events := events2, page_views := pvs2 }

/-- POST /app-proxy/collect: a zod parse failure is caught by the handler's
try/catch and answered with 400 bad_request, an invalid shop domain with 400
invalid_shop -- both before any database statement; an accepted request
applies the full database effect and replies ok. -/
def appProxyCollect (b : CollectBody) (m : RequestMeta) (nowMs : Int)
    (freshShopId : Nat) (db : Db) : CollectReply × Db :=
  if collectZodOk b = false then (.badRequest, db)
  else if shopRe b.shop_domain = false then (.badRequest, db)
  else (.ok, collectApply b m nowMs freshShopId db)

/-! ### Generic list lemmas shared by the table proofs -/

theorem any_iff_filter_pos {α : Type} (l : List α) (q : α → Bool) :
    l.any q = true ↔ 0 < (l.filter q).length := by
  rw [List.any_eq_true]
  constructor
  · rintro ⟨x, hx, hq⟩
    exact List.length_pos.mpr (List.ne_nil_of_mem (List.mem_filter.mpr ⟨hx, hq⟩))
  · intro h
    obtain ⟨x, hx⟩ := List.exists_mem_of_ne_nil _ (List.length_pos.mp h)
    exact ⟨x, (List.mem_filter.mp hx).1, (List.mem_filter.mp hx).2⟩

theorem length_filter_map_congr {α : Type} (l : List α) (f : α → α) (q : α → Bool)
    (hcong : ∀ x, q (f x) = q x) :
    ((l.map f).filter q).length = (l.filter q).length := by
  induction l with
  | nil => rfl
  | cons x xs ih =>
      simp only [List.map_cons, List.filter_cons, hcong x]
      cases hx : q x <;> simp [ih]

theorem find?_map_stable {α : Type} (l : List α) (p : α → Bool) (f : α → α)
    (hcong : ∀ x, p (f x) = p x) (r : α) (hr : l.find? p = some r) :
    (l.map f).find? p = some (f r) := by
  induction l with
  | nil => cases hr
  | cons x xs ih =>
      by_cases hx : p x = true
      · rw [List.find?_cons_of_pos _ hx] at hr
        obtain rfl : x = r := Option.some.inj hr
        exact List.find?_cons_of_pos _ (by rw [hcong x]; exact hx)
      · rw [List.find?_cons_of_neg _ (by simpa using hx)] at hr
        rw [List.map_cons, List.find?_cons_of_neg _ (by rw [hcong x]; simpa using hx)]
        exact ih hr

theorem any_of_find?_some {α : Type} (l : List α) (p : α → Bool) (r : α)
    (hr : l.find? p = some r) : l.any p = true :=
  List.any_eq_true.mpr ⟨r, List.mem_of_find?_eq_some hr, List.find?_some hr⟩

theorem any_eq_false_of_find?_none {α : Type} (l : List α) (p : α → Bool)
    (h : l.find? p = none) : l.any p = false := by
  rw [Bool.eq_false_iff]
  intro hany
  obtain ⟨x, hx, hq⟩ := List.any_eq_true.mp hany
  exact absurd hq (List.find?_eq_none.mp h x hx)

/-! ### C8: validation failures reject with 400 and write nothing -/

/-- C8: when the request body fails the zod schema or the shop domain fails
SHOP_RE, POST /app-proxy/collect answers with the 400 client error and the
database is completely untouched: no shop, session, event or page-view row
is created or modified. -/
theorem collect_validation_no_write (b : CollectBody) (m : RequestMeta)
    (nowMs : Int) (freshShopId : Nat) (db : Db)
    (h : collectZodOk b = false ∨ shopRe b.shop_domain = false) :
    appProxyCollect b m nowMs freshShopId db = (.badRequest, db) := by
  unfold appProxyCollect
  rcases h with h | h
  · rw [if_pos h]
  · cases hz : collectZodOk b
    · rw [if_pos rfl]
    · rw [if_neg (by simp [hz]), if_pos h]

/-- Collect body with a shop domain rejected by SHOP_RE (too short), used by
the C8 witness. -/
def badShopBody : CollectBody :=
  { event := "page_view", ts := none, session_id := "sess_1", visitor_id := none,
    shop_domain := "ab", page := none, duration_ms := none, event_id := none }

/-- Request metadata with no forwarding header, user agent or ip. -/
def emptyMeta : RequestMeta :=
  { xForwardedFor := "", userAgent := none, reqIp := none }

/-- The empty database. -/
def emptyDb : Db :=
  { shops := [], sessions := [], events := [], page_views := [] }

/-- Witness for C8: a malformed shop domain is rejected with 400 and the
database stays empty. -/
theorem collect_validation_no_write_witness :
    (collectZodOk badShopBody = false ∨ shopRe badShopBody.shop_domain = false) ∧
    appProxyCollect badShopBody emptyMeta 1700000000000 1 emptyDb =
      (.badRequest, emptyDb) :=
  ⟨Or.inr (by decide),
   collect_validation_no_write badShopBody emptyMeta 1700000000000 1 emptyDb
     (Or.inr (by decide))⟩

/-! ### C1: event dedup on the pair (shop_id, event_id) -/

theorem shopsUpsert_found (tbl : List ShopRow) (domain : String) (fresh : Nat)
    (r : ShopRow) (hr : tbl.find? (fun x => x.domain == domain) = some r) :
    shopsUpsert tbl domain fresh = (tbl, r.id) := by
  unfold shopsUpsert
  rw [hr]

theorem shopsUpsert_new (tbl : List ShopRow) (domain : String) (fresh : Nat)
    (hr : tbl.find? (fun x => x.domain == domain) = none) :
    shopsUpsert tbl domain fresh = (tbl ++ [{ id := fresh, domain := domain }], fresh) := by
  unfold shopsUpsert
  rw [hr]

theorem shopsUpsert_stable (tbl : List ShopRow) (domain : String) (fresh : Nat) :
    shopsUpsert (shopsUpsert tbl domain fresh).1 domain fresh =
      ((shopsUpsert tbl domain fresh).1, (shopsUpsert tbl domain fresh).2) := by
  cases hf : tbl.find? (fun x => x.domain == domain) with
  | some r =>
      rw [shopsUpsert_found tbl domain fresh r hf]
      exact shopsUpsert_found tbl domain fresh r hf
  | none =>
      have hfind : (tbl ++ [({ id := fresh, domain := domain } : ShopRow)]).find?
          (fun x => x.domain == domain) = some { id := fresh, domain := domain } := by
        rw [List.find?_append, hf]
        simp
      rw [shopsUpsert_new tbl domain fresh hf]
      exact shopsUpsert_found _ domain fresh _ hfind

theorem eventKey_self (row : EventRow) (eid : String)
    (heid : row.event_id = some eid) : eventKey row row.shop_id eid = true := by
  unfold eventKey
  rw [heid]
  simp

theorem eventKey_false_of_shop_ne (x : EventRow) (s2 : Nat) (eid2 : String)
    (h : x.shop_id ≠ s2) : eventKey x s2 eid2 = false := by
  unfold eventKey
  simp [h]

theorem eventsWrite_some (tbl : List EventRow) (row : EventRow) (eid : String)
    (heid : row.event_id = some eid) :
    eventsWrite tbl row =
      if tbl.any (fun r => eventKey r row.shop_id eid) then
        tbl.map (fun r => if eventKey r row.shop_id eid then row else r)
      else tbl ++ [row] := by
  unfold eventsWrite
  rw [heid]

theorem eventsWrite_none (tbl : List EventRow) (row : EventRow)
    (heid : row.event_id = none) : eventsWrite tbl row = tbl ++ [row] := by
  unfold eventsWrite
  rw [heid]

theorem eventsCount_write_new (tbl : List EventRow) (row : EventRow) (eid : String)
    (heid : row.event_id = some eid)
    (h0 : eventsCount tbl row.shop_id eid = 0) :
    eventsCount (eventsWrite tbl row) row.shop_id eid = 1 := by
  have hany : tbl.any (fun r => eventKey r row.shop_id eid) = false := by
    rw [Bool.eq_false_iff]
    intro h
    have hpos := (any_iff_filter_pos tbl _).mp h
    unfold eventsCount at h0
    omega
  rw [eventsWrite_some tbl row eid heid, if_neg (by simp [hany])]
  unfold eventsCount
  rw [List.filter_append, List.length_append]
  unfold eventsCount at h0
  rw [h0, List.filter_cons]
  rw [if_pos (by simp [eventKey_self row eid heid])]
  rfl

theorem eventsCount_write_existing (tbl : List EventRow) (row : EventRow) (eid : String)
    (heid : row.event_id = some eid)
    (h1 : 0 < eventsCount tbl row.shop_id eid) :
    eventsCount (eventsWrite tbl row) row.shop_id eid =
      eventsCount tbl row.shop_id eid := by
  have hany := (any_iff_filter_pos tbl (fun r => eventKey r row.shop_id eid)).mpr h1
  rw [eventsWrite_some tbl row eid heid, if_pos hany]
  unfold eventsCount
  refine length_filter_map_congr tbl _ _ (fun x => ?_)
  by_cases hx : eventKey x row.shop_id eid = true
  · rw [if_pos hx, hx, eventKey_self row eid heid]
  · rw [if_neg hx]

theorem eventsCount_write_other_shop (tbl : List EventRow) (row : EventRow)
    (s2 : Nat) (eid2 : String) (hne : s2 ≠ row.shop_id) :
    eventsCount (eventsWrite tbl row) s2 eid2 = eventsCount tbl s2 eid2 := by
  have hrowkey : eventKey row s2 eid2 = false :=
    eventKey_false_of_shop_ne row s2 eid2 (Ne.symm hne)
  cases hre : row.event_id with
  | none =>
      rw [eventsWrite_none tbl row hre]
      unfold eventsCount
      rw [List.filter_append, List.length_append, List.filter_cons, if_neg (by simp [hrowkey])]
      rfl
  | some eid =>
      rw [eventsWrite_some tbl row eid hre]
      by_cases hany : tbl.any (fun r => eventKey r row.shop_id eid) = true
      · rw [if_pos hany]
        unfold eventsCount
        refine length_filter_map_congr tbl _ _ (fun x => ?_)
        by_cases hx : eventKey x row.shop_id eid = true
        · have hxs : x.shop_id = row.shop_id := by
            have hx2 := hx
            unfold eventKey at hx2
            rw [Bool.and_eq_true] at hx2
            exact eq_of_beq hx2.1
          rw [if_pos hx, hrowkey,
            eventKey_false_of_shop_ne x s2 eid2 (fun he => hne (he.symm.trans hxs))]
        · rw [if_neg hx]
      · rw [if_neg hany]
        unfold eventsCount
        rw [List.filter_append, List.length_append, List.filter_cons, if_neg (by simp [hrowkey])]
        rfl

theorem appProxyCollect_accepted (b : CollectBody) (m : RequestMeta) (nowMs : Int)
    (fresh : Nat) (db : Db) (hz : collectZodOk b = true)
    (hs : shopRe b.shop_domain = true) :
    appProxyCollect b m nowMs fresh db = (.ok, collectApply b m nowMs fresh db) := by
  unfold appProxyCollect
  rw [if_neg (by simp [hz]), if_neg (by simp [hs])]

theorem collectApply_shops (b : CollectBody) (m : RequestMeta) (nowMs : Int)
    (fresh : Nat) (db : Db) :
    (collectApply b m nowMs fresh db).shops =
      (shopsUpsert db.shops b.shop_domain fresh).1 := rfl

theorem collectApply_events (b : CollectBody) (m : RequestMeta) (nowMs : Int)
    (fresh : Nat) (db : Db) :
    (collectApply b m nowMs fresh db).events =
      eventsWrite db.events
        { shop_id := (shopsUpsert db.shops b.shop_domain fresh).2,
          session_id := b.session_id, name := b.event, ts := clampTs nowMs b.ts,
          page_path := (b.page.bind PageInfo.path).bind jsStringOrNone,
          event_id := b.event_id.bind jsStringOrNone } := rfl

/-- N-fold resubmission of one collect request through the endpoint. -/
def submitCollectN : Nat → CollectBody → RequestMeta → Int → Nat → Db → Db
  | 0, _, _, _, _, db => db
  | n + 1, b, m, now, fresh, db =>
      submitCollectN n b m now fresh (appProxyCollect b m now fresh db).2

/-- Invariant of repeated submission: the shop row is settled (re-upserting
the domain returns the same table and id) and exactly one event row carries
the pair (shopId, eid). -/
def dedupInv (b : CollectBody) (fresh shopId : Nat) (eid : String) (db : Db) : Prop :=
  shopsUpsert db.shops b.shop_domain fresh = (db.shops, shopId) ∧
  eventsCount db.events shopId eid = 1

/-- C1: submitting the same collect body carrying an event_id N times yields
exactly one stored events row for the pair (shop_id, event_id), for any
N ≥ 1; and the dedup is keyed on the pair, not on event_id alone: the upsert
never touches rows of a different shop_id, and a row whose (shop_id,
event_id) pair is not yet present is always inserted, even if another shop
already stored the same event_id. -/
theorem event_dedup_idempotent (b : CollectBody) (m : RequestMeta) (nowMs : Int)
    (fresh : Nat) (db0 : Db) (eid : String)
    (hz : collectZodOk b = true) (hs : shopRe b.shop_domain = true)
    (heid : b.event_id = some eid) (hnonempty : eid.isEmpty = false)
    (h0 : eventsCount db0.events (shopsUpsert db0.shops b.shop_domain fresh).2 eid = 0) :
    (∀ n : Nat, 1 ≤ n →
      eventsCount (submitCollectN n b m nowMs fresh db0).events
        (shopsUpsert db0.shops b.shop_domain fresh).2 eid = 1) ∧
    (∀ (tbl : List EventRow) (row : EventRow) (s2 : Nat) (eid2 : String),
      s2 ≠ row.shop_id →
      eventsCount (eventsWrite tbl row) s2 eid2 = eventsCount tbl s2 eid2) ∧
    (∀ (tbl : List EventRow) (row : EventRow) (eid2 : String),
      row.event_id = some eid2 → eventsCount tbl row.shop_id eid2 = 0 →
      eventsCount (eventsWrite tbl row) row.shop_id eid2 = 1) := by
  refine ⟨?_, fun tbl row s2 eid2 h => eventsCount_write_other_shop tbl row s2 eid2 h,
    fun tbl row eid2 h h2 => eventsCount_write_new tbl row eid2 h h2⟩
  set shopId := (shopsUpsert db0.shops b.shop_domain fresh).2 with hshopId
  have hbind : b.event_id.bind jsStringOrNone = some eid := by
    rw [heid]
    show jsStringOrNone eid = some eid
    unfold jsStringOrNone
    rw [if_neg (by simp [hnonempty])]
  have hstep : ∀ db : Db, dedupInv b fresh shopId eid db →
      dedupInv b fresh shopId eid ((appProxyCollect b m nowMs fresh db).2) := by
    rintro db ⟨hsup, hcount⟩
    rw [appProxyCollect_accepted b m nowMs fresh db hz hs]
    constructor
    · show shopsUpsert (collectApply b m nowMs fresh db).shops b.shop_domain fresh =
        ((collectApply b m nowMs fresh db).shops, shopId)
      rw [collectApply_shops, hsup]
      exact hsup
    · show eventsCount (collectApply b m nowMs fresh db).events shopId eid = 1
      rw [collectApply_events, hsup, hbind]
      exact (eventsCount_write_existing db.events _ eid rfl
        (lt_of_lt_of_eq Nat.one_pos hcount.symm)).trans hcount
  have hbase : dedupInv b fresh shopId eid ((appProxyCollect b m nowMs fresh db0).2) := by
    rw [appProxyCollect_accepted b m nowMs fresh db0 hz hs]
    constructor
    · show shopsUpsert (collectApply b m nowMs fresh db0).shops b.shop_domain fresh =
        ((collectApply b m nowMs fresh db0).shops, shopId)
      rw [collectApply_shops, hshopId]
      exact shopsUpsert_stable db0.shops b.shop_domain fresh
    · show eventsCount (collectApply b m nowMs fresh db0).events shopId eid = 1
      rw [collectApply_events, ← hshopId, hbind]
      exact eventsCount_write_new db0.events _ eid rfl h0
  have hall : ∀ (n : Nat) (db : Db), dedupInv b fresh shopId eid db →
      dedupInv b fresh shopId eid (submitCollectN n b m nowMs fresh db) := by
    intro n
    induction n with
    | zero => exact fun db h => h
    | succ k ih => exact fun db h => ih _ (hstep db h)
  intro n hn
  obtain ⟨k, rfl⟩ : ∃ k, n = k + 1 := ⟨n - 1, by omega⟩
  exact (hall k _ hbase).2

/-- Collect body used by the C1 witness: a purchase event with event_id
ord_1 for shop s.myshopify.com. -/
def dedupBody : CollectBody :=
  { event := "purchase", ts := none, session_id := "sess_1", visitor_id := none,
    shop_domain := "s.myshopify.com", page := none, duration_ms := none,
    event_id := some "ord_1" }

/-- Witness for C1: submitting the ord_1 purchase twice against an empty
database leaves exactly one events row with that (shop, event_id) pair. -/
theorem event_dedup_idempotent_witness :
    collectZodOk dedupBody = true ∧ shopRe dedupBody.shop_domain = true ∧
    dedupBody.event_id = some "ord_1" ∧ String.isEmpty "ord_1" = false ∧
    eventsCount emptyDb.events
      (shopsUpsert emptyDb.shops dedupBody.shop_domain 1).2 "ord_1" = 0 ∧
    eventsCount (submitCollectN 2 dedupBody emptyMeta 1700000000000 1 emptyDb).events
      (shopsUpsert emptyDb.shops dedupBody.shop_domain 1).2 "ord_1" = 1 :=
  ⟨by decide, by decide, by decide, by decide, by decide,
   (event_dedup_idempotent dedupBody emptyMeta 1700000000000 1 emptyDb "ord_1"
     (by decide) (by decide) (by decide) (by decide) (by decide)).1 2 (by decide)⟩

/-! ### C2 and C5: session first_seen / last_seen and network metadata -/

/-- One processed collect request as seen by the session upsert: the clamped
timestamp and the ip / user agent / referrer values the handler computed. -/
structure SessionTouch where
  ts : Int
  ip : Option String
  ua : Option String
  ref : Option String
deriving Repr, DecidableEq

/-- Sequential processing of a list of collect requests for one session id
through the update-then-insert session upsert. -/
def runCollectSession (shopId : Nat) (sid : String) (visitorId : Option String) :
    List SessionRow → List SessionTouch → List SessionRow
  | tbl, [] => tbl
  | tbl, e :: es => runCollectSession shopId sid visitorId
      (collectSession tbl shopId sid visitorId e.ts e.ip e.ua e.ref) es

theorem sessionsInsert_free (tbl : List SessionRow) (row : SessionRow)
    (h : tbl.any (fun r => r.id == row.id) = false) :
    sessionsInsert tbl row = (tbl ++ [row], false) := by
  unfold sessionsInsert
  rw [if_neg (by simp [h])]

theorem sessions_map_noop (tbl : List SessionRow) (sid : String)
    (g : SessionRow → SessionRow)
    (h : tbl.find? (fun x => x.id == sid) = none) :
    tbl.map (fun r => if r.id == sid then g r else r) = tbl := by
  have hall := List.find?_eq_none.mp h
  calc tbl.map (fun r => if r.id == sid then g r else r)
      = tbl.map id := List.map_congr_left (fun r hr => by
        rw [if_neg (by simpa using hall r hr)]
        rfl)
    _ = tbl := List.map_id tbl

/-- A first event for an unseen session id inserts the row with
first_seen = last_seen = ts and the request's metadata. -/
theorem collectSession_new (tbl : List SessionRow) (shopId : Nat) (sid : String)
    (visitorId : Option String) (ts : Int) (ip ua ref : Option String)
    (h : tbl.find? (fun x => x.id == sid) = none) :
    (collectSession tbl shopId sid visitorId ts ip ua ref).find?
        (fun x => x.id == sid) =
      some { id := sid, shop_id := shopId, visitor_id := visitorId,
             first_seen := ts, last_seen := ts, ip := ip, ua := ua,
             referrer := ref } := by
  have hany : tbl.any (fun x => x.id == sid) = false := any_eq_false_of_find?_none tbl _ h
  have hupd : sessionsUpdateMeta tbl sid ts ip ua ref = (tbl, false) := by
    unfold sessionsUpdateMeta
    rw [sessions_map_noop tbl sid _ h, hany]
  have hins := sessionsInsert_free tbl
    { id := sid, shop_id := shopId, visitor_id := visitorId,
      first_seen := ts, last_seen := ts, ip := ip, ua := ua, referrer := ref }
    (by exact hany)
  simp only [collectSession, hupd, hins]
  rw [List.find?_append, h]
  simp

/-- A later event for an existing session row updates last_seen, ip, ua and
referrer and keeps first_seen. -/
theorem collectSession_existing (tbl : List SessionRow) (shopId : Nat) (sid : String)
    (visitorId : Option String) (ts : Int) (ip ua ref : Option String)
    (r : SessionRow) (hr : tbl.find? (fun x => x.id == sid) = some r) :
    (collectSession tbl shopId sid visitorId ts ip ua ref).find?
        (fun x => x.id == sid) =
      some { r with last_seen := ts, ip := ip, ua := ua, referrer := ref } := by
  have hany : tbl.any (fun x => x.id == sid) = true := any_of_find?_some tbl _ r hr
  have hupd : sessionsUpdateMeta tbl sid ts ip ua ref =
      (tbl.map (fun x =>
         if x.id == sid then { x with last_seen := ts, ip := ip, ua := ua, referrer := ref }
         else x), true) := by
    unfold sessionsUpdateMeta
    rw [hany]
  simp only [collectSession, hupd]
  have hpr : (r.id == sid) = true := by simpa using List.find?_some hr
  have hst := find?_map_stable tbl (fun x => x.id == sid)
    (fun x =>
      if x.id == sid then { x with last_seen := ts, ip := ip, ua := ua, referrer := ref }
      else x)
    (fun x => by by_cases hx : (x.id == sid) = true <;> simp [hx]) r hr
  simp only [hpr, if_true] at hst
  exact hst

theorem runCollectSession_existing (shopId : Nat) (sid : String)
    (visitorId : Option String) (es : List SessionTouch) :
    ∀ (tbl : List SessionRow) (r : SessionRow),
      tbl.find? (fun x => x.id == sid) = some r →
      ∃ r2, (runCollectSession shopId sid visitorId tbl es).find?
          (fun x => x.id == sid) = some r2 ∧
        r2.first_seen = r.first_seen ∧
        r2.last_seen = (es.map SessionTouch.ts).getLastD r.last_seen := by
  induction es with
  | nil => exact fun tbl r hr => ⟨r, hr, rfl, rfl⟩
  | cons e es ih =>
      intro tbl r hr
      obtain ⟨r2, hr2, hfirst, hlast⟩ := ih
        (collectSession tbl shopId sid visitorId e.ts e.ip e.ua e.ref)
        { r with last_seen := e.ts, ip := e.ip, ua := e.ua, referrer := e.ref }
        (collectSession_existing tbl shopId sid visitorId e.ts e.ip e.ua e.ref r hr)
      exact ⟨r2, hr2, hfirst, by
        rw [List.map_cons, List.getLastD_cons]
        exact hlast⟩

/-- Amended C2: for a brand-new session id, after processing a nonempty
sequence of requests the row's first_seen equals the timestamp of the FIRST
PROCESSED request (arrival order) and is never modified afterwards, while
last_seen equals the timestamp of the LAST PROCESSED request (last write
wins), which is the maximum only when timestamps arrive in order. -/
theorem session_seen_amended (shopId : Nat) (sid : String)
    (visitorId : Option String) (tbl0 : List SessionRow)
    (h0 : tbl0.find? (fun x => x.id == sid) = none)
    (e : SessionTouch) (es : List SessionTouch) :
    ∃ r, (runCollectSession shopId sid visitorId tbl0 (e :: es)).find?
        (fun x => x.id == sid) = some r ∧
      r.first_seen = e.ts ∧
      r.last_seen = (es.map SessionTouch.ts).getLastD e.ts := by
  exact runCollectSession_existing shopId sid visitorId es
    (collectSession tbl0 shopId sid visitorId e.ts e.ip e.ua e.ref)
    { id := sid, shop_id := shopId, visitor_id := visitorId,
      first_seen := e.ts, last_seen := e.ts, ip := e.ip, ua := e.ua,
      referrer := e.ref }
    (collectSession_new tbl0 shopId sid visitorId e.ts e.ip e.ua e.ref h0)

/-- Counterexample to C2 as stated: two requests for session sess_1 arriving
out of order with timestamps 200 then 100 leave last_seen = 100, not the
maximum 200 of the processed timestamps. -/
theorem session_seen_counterexample :
    ∃ r, (runCollectSession 1 "sess_1" none []
        [{ ts := 200, ip := none, ua := none, ref := none },
         { ts := 100, ip := none, ua := none, ref := none }]).find?
        (fun x => x.id == "sess_1") = some r ∧
      r.first_seen = 200 ∧ r.last_seen = 100 ∧ ¬ r.last_seen = max 200 100 :=
  ⟨{ id := "sess_1", shop_id := 1, visitor_id := none, first_seen := 200,
     last_seen := 100, ip := none, ua := none, referrer := none },
   by decide, by decide, by decide, by decide⟩

/-- Witness for the amended C2: timestamps 100 then 400 for a fresh session
give first_seen = 100 and last_seen = 400. -/
theorem session_seen_amended_witness :
    (([] : List SessionRow).find? (fun x => x.id == "sess_1") = none) ∧
    ∃ r, (runCollectSession 1 "sess_1" none []
        [{ ts := 100, ip := none, ua := none, ref := none },
         { ts := 400, ip := none, ua := none, ref := none }]).find?
        (fun x => x.id == "sess_1") = some r ∧
      r.first_seen = 100 ∧
      r.last_seen = ([({ ts := 400, ip := none, ua := none, ref := none } :
          SessionTouch)].map SessionTouch.ts).getLastD 100 :=
  ⟨by decide,
   session_seen_amended 1 "sess_1" none [] (by decide)
     { ts := 100, ip := none, ua := none, ref := none }
     [{ ts := 400, ip := none, ua := none, ref := none }]⟩

/-! ### C5: session metadata last-write-wins versus coalesce -/

/-- SQL coalesce of the incoming (excluded) value with the stored one: the
stored value survives only when the incoming one is null. -/
def coalesce (new old : Option String) : Option String :=
  match new with
  | some v => some v
  | none => old

/-- Session upsert of the pg variant (src/apps/api/src/index.ts lines
548-551): insert on conflict (id) do update set last_seen = now(),
ip = coalesce(excluded.ip, sessions.ip), ua = coalesce(excluded.ua,
sessions.ua), referrer = coalesce(excluded.referrer, sessions.referrer). -/
def pgSessionsUpsert (tbl : List SessionRow) (sid : String) (shopId : Nat)
    (now : Int) (ip ua ref : Option String) : List SessionRow :=
  if tbl.any (fun r => r.id == sid) then
    tbl.map (fun r =>
      if r.id == sid then
        { r with
          last_seen := now
          ip := coalesce ip r.ip
          ua := coalesce ua r.ua
          referrer := coalesce ref r.referrer }
      else r)
  else
    tbl ++ [{ id := sid, shop_id := shopId, visitor_id := none,
              first_seen := now, last_seen := now, ip := ip, ua := ua,
              referrer := ref }]

/-- Counterexample to C5 as stated: the main variant's session update writes
ip, ua and referrer unconditionally, so an event carrying no user agent
overwrites a previously stored one with null. -/
theorem session_meta_counterexample :
    ∃ r, (collectSession
        [{ id := "sess_1", shop_id := 1, visitor_id := none, first_seen := 50,
           last_seen := 50, ip := none, ua := some "UA1", referrer := none }]
        1 "sess_1" none 60 none none none).find?
        (fun x => x.id == "sess_1") = some r ∧
      ¬ r.ua = some "UA1" :=
  ⟨{ id := "sess_1", shop_id := 1, visitor_id := none, first_seen := 50,
     last_seen := 60, ip := none, ua := none, referrer := none },
   by decide, by decide⟩

/-- Amended C5: ip, ua and referrer are last-write-wins in both variants, but
only the pg variant's coalesce protects a stored value from an incoming null;
the main Supabase variant overwrites each of the three fields with the
incoming value, null included. -/
theorem session_meta_amended (tbl : List SessionRow) (sid : String)
    (shopId : Nat) (ts : Int) (ip ua ref : Option String) (r : SessionRow)
    (hr : tbl.find? (fun x => x.id == sid) = some r) :
    (∃ r2, (pgSessionsUpsert tbl sid shopId ts ip ua ref).find?
        (fun x => x.id == sid) = some r2 ∧
      r2.ip = coalesce ip r.ip ∧ r2.ua = coalesce ua r.ua ∧
      r2.referrer = coalesce ref r.referrer) ∧
    (∃ r2, (collectSession tbl shopId sid none ts ip ua ref).find?
        (fun x => x.id == sid) = some r2 ∧
      r2.ip = ip ∧ r2.ua = ua ∧ r2.referrer = ref) := by
  constructor
  · have hany : tbl.any (fun x => x.id == sid) = true := any_of_find?_some tbl _ r hr
    have hpr : (r.id == sid) = true := by simpa using List.find?_some hr
    unfold pgSessionsUpsert
    rw [if_pos hany]
    have hst := find?_map_stable tbl (fun x => x.id == sid)
      (fun x =>
        if x.id == sid then
          { x with
            last_seen := ts
            ip := coalesce ip x.ip
            ua := coalesce ua x.ua
            referrer := coalesce ref x.referrer }
        else x)
      (fun x => by by_cases hx : (x.id == sid) = true <;> simp [hx]) r hr
    simp only [hpr, if_true] at hst
    exact ⟨_, hst, rfl, rfl, rfl⟩
  · exact ⟨_, collectSession_existing tbl shopId sid none ts ip ua ref r hr, rfl, rfl, rfl⟩

/-- Witness for the amended C5: with a stored user agent UA1 and an event
carrying no user agent, the pg variant keeps UA1 while the main variant
stores null. -/
theorem session_meta_amended_witness :
    ([({ id := "sess_1", shop_id := 1, visitor_id := none, first_seen := 50,
         last_seen := 50, ip := none, ua := some "UA1", referrer := none } :
         SessionRow)].find? (fun x => x.id == "sess_1") =
      some { id := "sess_1", shop_id := 1, visitor_id := none, first_seen := 50,
             last_seen := 50, ip := none, ua := some "UA1", referrer := none }) ∧
    (∃ r2, (pgSessionsUpsert
        [{ id := "sess_1", shop_id := 1, visitor_id := none, first_seen := 50,
           last_seen := 50, ip := none, ua := some "UA1", referrer := none }]
        "sess_1" 1 60 none none none).find?
        (fun x => x.id == "sess_1") = some r2 ∧
      r2.ip = coalesce none none ∧ r2.ua = coalesce none (some "UA1") ∧
      r2.referrer = coalesce none none) :=
  ⟨by decide,
   (session_meta_amended
     [{ id := "sess_1", shop_id := 1, visitor_id := none, first_seen := 50,
        last_seen := 50, ip := none, ua := some "UA1", referrer := none }]
     "sess_1" 1 60 none none none
     { id := "sess_1", shop_id := 1, visitor_id := none, first_seen := 50,
       last_seen := 50, ip := none, ua := some "UA1", referrer := none }
     (by decide)).1⟩

/-! ### C4: two concurrent first events for a brand-new session id

Each request runs the three-statement protocol of the handler (update,
insert on failure of the update, fallback last_seen update on a lost insert
race); the database statements are atomic and the two requests interleave
arbitrarily. -/

/-- Program counter of one in-flight collect request's session upsert. -/
inductive ReqPhase
  | start
  | needInsert
  | needFallback
  | finished
deriving Repr, DecidableEq

/-- Per-request parameters of the session upsert. -/
structure CollectReq where
  shopId : Nat
  sid : String
  visitor : Option String
  ts : Int
  ip : Option String
  ua : Option String
  ref : Option String
deriving Repr, DecidableEq

/-- One atomic database statement of the update-then-insert protocol. -/
def reqStep (q : CollectReq) (tbl : List SessionRow) (ph : ReqPhase) :
    List SessionRow × ReqPhase :=
  match ph with
  | .start =>
      match sessionsUpdateMeta tbl q.sid q.ts q.ip q.ua q.ref with
      | (tbl1, true) => (tbl1, .finished)
      | (tbl1, false) => (tbl1, .needInsert)
  | .needInsert =>
      match sessionsInsert tbl
        { id := q.sid, shop_id := q.shopId, visitor_id := q.visitor,
          first_seen := q.ts, last_seen := q.ts, ip := q.ip, ua := q.ua,
          referrer := q.ref } with
      | (tbl2, true) => (tbl2, .needFallback)
      | (tbl2, false) => (tbl2, .finished)
  | .needFallback => (sessionsUpdateLastSeen tbl q.sid q.ts, .finished)
  | .finished => (tbl, .finished)

/-- Interleaved state of two concurrent requests over one sessions table. -/
structure RaceState where
  tbl : List SessionRow
  ph1 : ReqPhase
  ph2 : ReqPhase
deriving Repr, DecidableEq

/-- Scheduler step: true runs the first request, false the second. -/
def raceStep (q1 q2 : CollectReq) (st : RaceState) (first : Bool) : RaceState :=
  if first then
    { tbl := (reqStep q1 st.tbl st.ph1).1, ph1 := (reqStep q1 st.tbl st.ph1).2,
      ph2 := st.ph2 }
  else
    { tbl := (reqStep q2 st.tbl st.ph2).1, ph1 := st.ph1,
      ph2 := (reqStep q2 st.tbl st.ph2).2 }

/-- Run a whole interleaving schedule. -/
def raceRun (q1 q2 : CollectReq) : List Bool → RaceState → RaceState
  | [], st => st
  | b :: bs, st => raceRun q1 q2 bs (raceStep q1 q2 st b)

/-- Number of session rows with the given id. -/
def sessionsCount (tbl : List SessionRow) (sid : String) : Nat :=
  (tbl.filter (fun r => r.id == sid)).length

theorem sessionsCount_map_stable (tbl : List SessionRow) (sid : String)
    (f : SessionRow → SessionRow) (hf : ∀ x, (f x).id = x.id) :
    sessionsCount (tbl.map f) sid = sessionsCount tbl sid := by
  unfold sessionsCount
  exact length_filter_map_congr tbl f _ (fun x => by rw [hf x])

theorem sessionsCount_updateMeta (tbl : List SessionRow) (sid sid2 : String)
    (ts : Int) (ip ua ref : Option String) :
    sessionsCount (sessionsUpdateMeta tbl sid ts ip ua ref).1 sid2 =
      sessionsCount tbl sid2 := by
  unfold sessionsUpdateMeta
  exact sessionsCount_map_stable tbl sid2 _ (fun x => by
    by_cases hx : (x.id == sid) = true <;> simp [hx])

theorem sessionsCount_updateLastSeen (tbl : List SessionRow) (sid sid2 : String)
    (ts : Int) :
    sessionsCount (sessionsUpdateLastSeen tbl sid ts) sid2 =
      sessionsCount tbl sid2 := by
  unfold sessionsUpdateLastSeen
  exact sessionsCount_map_stable tbl sid2 _ (fun x => by
    by_cases hx : (x.id == sid) = true <;> simp [hx])

theorem sessionsUpdateMeta_affected (tbl : List SessionRow) (sid : String)
    (ts : Int) (ip ua ref : Option String) :
    (sessionsUpdateMeta tbl sid ts ip ua ref).2 = tbl.any (fun r => r.id == sid) := rfl

/-- Invariant of the interleaved execution: the table never holds more than
one row for sid, and a request that has reached the fallback or finished
phase has witnessed the row, so exactly one row exists from then on. -/
def raceInv (sid : String) (st : RaceState) : Prop :=
  sessionsCount st.tbl sid ≤ 1 ∧
  ((st.ph1 = .needFallback ∨ st.ph1 = .finished) → sessionsCount st.tbl sid = 1) ∧
  ((st.ph2 = .needFallback ∨ st.ph2 = .finished) → sessionsCount st.tbl sid = 1)

theorem reqStep_inv (q : CollectReq) (tbl : List SessionRow) (ph : ReqPhase)
    (hcount : sessionsCount tbl q.sid ≤ 1)
    (hph : (ph = .needFallback ∨ ph = .finished) → sessionsCount tbl q.sid = 1) :
    sessionsCount (reqStep q tbl ph).1 q.sid ≤ 1 ∧
    sessionsCount tbl q.sid ≤ sessionsCount (reqStep q tbl ph).1 q.sid ∧
    (((reqStep q tbl ph).2 = .needFallback ∨ (reqStep q tbl ph).2 = .finished) →
      sessionsCount (reqStep q tbl ph).1 q.sid = 1) := by
  cases ph with
  | start =>
      cases hu : sessionsUpdateMeta tbl q.sid q.ts q.ip q.ua q.ref with
      | mk tbl1 aff =>
          have hcnt : sessionsCount tbl1 q.sid = sessionsCount tbl q.sid := by
            have hc2 := sessionsCount_updateMeta tbl q.sid q.sid q.ts q.ip q.ua q.ref
            rw [hu] at hc2
            exact hc2
          have haff : aff = tbl.any (fun r => r.id == q.sid) := by
            have ha2 := sessionsUpdateMeta_affected tbl q.sid q.ts q.ip q.ua q.ref
            rw [hu] at ha2
            exact ha2
          cases aff with
          | true =>
              have hpos : 0 < sessionsCount tbl q.sid :=
                (any_iff_filter_pos tbl _).mp haff.symm
              simp only [reqStep, hu]
              exact ⟨by omega, by omega, fun _ => by omega⟩
          | false =>
              simp only [reqStep, hu]
              exact ⟨by omega, by omega, fun h => by
                rcases h with h | h <;> cases h⟩
  | needInsert =>
      cases hb : tbl.any (fun r => r.id == q.sid) with
      | true =>
          have hins : sessionsInsert tbl
              { id := q.sid, shop_id := q.shopId, visitor_id := q.visitor,
                first_seen := q.ts, last_seen := q.ts, ip := q.ip, ua := q.ua,
                referrer := q.ref } = (tbl, true) := by
            unfold sessionsInsert
            rw [if_pos (by simpa using hb)]
          have hpos : 0 < sessionsCount tbl q.sid :=
            (any_iff_filter_pos tbl _).mp hb
          simp only [reqStep, hins]
          exact ⟨hcount, le_refl _, fun _ => by omega⟩
      | false =>
          have hins : sessionsInsert tbl
              { id := q.sid, shop_id := q.shopId, visitor_id := q.visitor,
                first_seen := q.ts, last_seen := q.ts, ip := q.ip, ua := q.ua,
                referrer := q.ref } =
              (tbl ++ [{ id := q.sid, shop_id := q.shopId, visitor_id := q.visitor,
                         first_seen := q.ts, last_seen := q.ts, ip := q.ip,
                         ua := q.ua, referrer := q.ref }], false) :=
            sessionsInsert_free tbl _ (by simpa using hb)
          have hzero : sessionsCount tbl q.sid = 0 := by
            have := (any_iff_filter_pos tbl (fun r => r.id == q.sid))
            unfold sessionsCount
            rcases Nat.eq_zero_or_pos (tbl.filter (fun r => r.id == q.sid)).length with h | h
            · exact h
            · rw [this.mpr h] at hb
              cases hb
          have hone : sessionsCount (tbl ++
              [({ id := q.sid, shop_id := q.shopId, visitor_id := q.visitor,
                  first_seen := q.ts, last_seen := q.ts, ip := q.ip,
                  ua := q.ua, referrer := q.ref } : SessionRow)]) q.sid = 1 := by
            unfold sessionsCount
            rw [List.filter_append, List.length_append]
            unfold sessionsCount at hzero
            rw [hzero, List.filter_cons, if_pos (by simp)]
            rfl
          simp only [reqStep, hins]
          exact ⟨by omega, by omega, fun _ => hone⟩
  | needFallback =>
      have hone := hph (Or.inl rfl)
      have hcnt := sessionsCount_updateLastSeen tbl q.sid q.sid q.ts
      simp only [reqStep, hcnt]
      exact ⟨hcount, le_refl _, fun _ => hone⟩
  | finished =>
      exact ⟨hcount, le_refl _, fun _ => hph (Or.inr rfl)⟩

theorem raceStep_inv (q1 q2 : CollectReq) (sid : String)
    (h1 : q1.sid = sid) (h2 : q2.sid = sid) (st : RaceState) (b : Bool)
    (hinv : raceInv sid st) : raceInv sid (raceStep q1 q2 st b) := by
  obtain ⟨hc, hp1, hp2⟩ := hinv
  cases b with
  | true =>
      subst h1
      have hmain := reqStep_inv q1 st.tbl st.ph1 hc hp1
      have htbl : (raceStep q1 q2 st true).tbl = (reqStep q1 st.tbl st.ph1).1 := rfl
      have hph1 : (raceStep q1 q2 st true).ph1 = (reqStep q1 st.tbl st.ph1).2 := rfl
      have hph2 : (raceStep q1 q2 st true).ph2 = st.ph2 := rfl
      refine ⟨?_, ?_, ?_⟩
      · rw [htbl]
        exact hmain.1
      · rw [hph1, htbl]
        exact hmain.2.2
      · rw [hph2, htbl]
        intro h
        have hold := hp2 h
        have hle := hmain.2.1
        have hub := hmain.1
        omega
  | false =>
      subst h2
      have hmain := reqStep_inv q2 st.tbl st.ph2 hc hp2
      have htbl : (raceStep q1 q2 st false).tbl = (reqStep q2 st.tbl st.ph2).1 := rfl
      have hph2 : (raceStep q1 q2 st false).ph2 = (reqStep q2 st.tbl st.ph2).2 := rfl
      have hph1 : (raceStep q1 q2 st false).ph1 = st.ph1 := rfl
      refine ⟨?_, ?_, ?_⟩
      · rw [htbl]
        exact hmain.1
      · rw [hph1, htbl]
        intro h
        have hold := hp1 h
        have hle := hmain.2.1
        have hub := hmain.1
        omega
      · rw [hph2, htbl]
        exact hmain.2.2

theorem raceRun_inv (q1 q2 : CollectReq) (sid : String)
    (h1 : q1.sid = sid) (h2 : q2.sid = sid) :
    ∀ (sched : List Bool) (st : RaceState),
      raceInv sid st → raceInv sid (raceRun q1 q2 sched st) := by
  intro sched
  induction sched with
  | nil => exact fun st h => h
  | cons b bs ih => exact fun st h => ih _ (raceStep_inv q1 q2 sid h1 h2 st b h)

/-- Progress measure on the request phases. -/
def phaseRank : ReqPhase → Nat
  | .start => 0
  | .needInsert => 1
  | .needFallback => 2
  | .finished => 3

theorem phaseRank_reqStep (q : CollectReq) (tbl : List SessionRow) (ph : ReqPhase) :
    min 3 (phaseRank ph + 1) ≤ phaseRank (reqStep q tbl ph).2 := by
  cases ph with
  | start =>
      cases hu : sessionsUpdateMeta tbl q.sid q.ts q.ip q.ua q.ref with
      | mk tbl1 aff =>
          cases aff <;> simp [reqStep, hu, phaseRank]
  | needInsert =>
      cases hi : sessionsInsert tbl
        { id := q.sid, shop_id := q.shopId, visitor_id := q.visitor,
          first_seen := q.ts, last_seen := q.ts, ip := q.ip, ua := q.ua,
          referrer := q.ref } with
      | mk tbl2 er =>
          cases er <;> simp [reqStep, hi, phaseRank]
  | needFallback => simp [reqStep, phaseRank]
  | finished => simp [reqStep, phaseRank]

theorem phaseRank_mono_reqStep (q : CollectReq) (tbl : List SessionRow) (ph : ReqPhase) :
    phaseRank ph ≤ phaseRank (reqStep q tbl ph).2 := by
  have := phaseRank_reqStep q tbl ph
  cases ph <;> simp [phaseRank] at this ⊢ <;> omega

theorem raceRun_progress (q1 q2 : CollectReq) :
    ∀ (sched : List Bool) (st : RaceState),
      min 3 (phaseRank st.ph1 + (sched.count true)) ≤
          phaseRank (raceRun q1 q2 sched st).ph1 ∧
      min 3 (phaseRank st.ph2 + (sched.count false)) ≤
          phaseRank (raceRun q1 q2 sched st).ph2 := by
  intro sched
  induction sched with
  | nil =>
      intro st
      constructor <;> simp [raceRun, List.count_nil] <;> omega
  | cons b bs ih =>
      intro st
      have hranks : phaseRank (raceRun q1 q2 (b :: bs) st).ph1 =
          phaseRank (raceRun q1 q2 bs (raceStep q1 q2 st b)).ph1 := rfl
      obtain ⟨ih1, ih2⟩ := ih (raceStep q1 q2 st b)
      have hb1 : phaseRank st.ph1 ≤ 3 := by cases st.ph1 <;> simp [phaseRank]
      have hb2 : phaseRank st.ph2 ≤ 3 := by cases st.ph2 <;> simp [phaseRank]
      cases b with
      | true =>
          have hstep1 : min 3 (phaseRank st.ph1 + 1) ≤
              phaseRank (raceStep q1 q2 st true).ph1 :=
            phaseRank_reqStep q1 st.tbl st.ph1
          have hstep2 : phaseRank (raceStep q1 q2 st true).ph2 = phaseRank st.ph2 := rfl
          have hcnt1 : (true :: bs).count true = bs.count true + 1 := by
            simp [List.count_cons]
          have hcnt2 : (true :: bs).count false = bs.count false := by
            simp [List.count_cons]
          rw [hcnt1, hcnt2]
          rw [hstep2] at ih2
          constructor
          · refine le_trans ?_ ih1
            have h3 : phaseRank (raceStep q1 q2 st true).ph1 ≤ 3 := by
              cases hph : (raceStep q1 q2 st true).ph1 <;> simp [phaseRank]
            omega
          · exact ih2
      | false =>
          have hstep2 : min 3 (phaseRank st.ph2 + 1) ≤
              phaseRank (raceStep q1 q2 st false).ph2 :=
            phaseRank_reqStep q2 st.tbl st.ph2
          have hstep1 : phaseRank (raceStep q1 q2 st false).ph1 = phaseRank st.ph1 := rfl
          have hcnt1 : (false :: bs).count true = bs.count true := by
            simp [List.count_cons]
          have hcnt2 : (false :: bs).count false = bs.count false + 1 := by
            simp [List.count_cons]
          rw [hcnt1, hcnt2]
          rw [hstep1] at ih1
          constructor
          · exact ih1
          · refine le_trans ?_ ih2
            have h3 : phaseRank (raceStep q1 q2 st false).ph2 ≤ 3 := by
              cases hph : (raceStep q1 q2 st false).ph2 <;> simp [phaseRank]
            omega

theorem phase_finished_of_rank (ph : ReqPhase) (h : 3 ≤ phaseRank ph) :
    ph = .finished := by
  cases ph <;> simp [phaseRank] at h ⊢

/-- C4: if two concurrent collect requests both carry the first event for a
brand-new session id, then under every interleaving of their atomic database
statements in which each request gets to run its (at most three) statements,
both requests complete (neither fails: a lost insert race falls back to the
last_seen update) and the table holds exactly one row for that id --- not
zero and not two. -/
theorem concurrent_first_insert (q1 q2 : CollectReq) (sid : String)
    (h1 : q1.sid = sid) (h2 : q2.sid = sid) (tbl0 : List SessionRow)
    (h0 : sessionsCount tbl0 sid = 0) (sched : List Bool)
    (hs1 : 3 ≤ sched.count true) (hs2 : 3 ≤ sched.count false) :
    (raceRun q1 q2 sched { tbl := tbl0, ph1 := .start, ph2 := .start }).ph1 =
        .finished ∧
    (raceRun q1 q2 sched { tbl := tbl0, ph1 := .start, ph2 := .start }).ph2 =
        .finished ∧
    sessionsCount
      (raceRun q1 q2 sched { tbl := tbl0, ph1 := .start, ph2 := .start }).tbl
      sid = 1 := by
  have hinv0 : raceInv sid { tbl := tbl0, ph1 := .start, ph2 := .start } := by
    refine ⟨show sessionsCount tbl0 sid ≤ 1 by omega, fun h => ?_, fun h => ?_⟩ <;>
      rcases h with h | h <;> cases h
  have hinv := raceRun_inv q1 q2 sid h1 h2 sched _ hinv0
  have hprog := raceRun_progress q1 q2 sched
    { tbl := tbl0, ph1 := .start, ph2 := .start }
  have hfin1 : (raceRun q1 q2 sched { tbl := tbl0, ph1 := .start, ph2 := .start }).ph1 =
      .finished := by
    refine phase_finished_of_rank _ ?_
    have := hprog.1
    simp only [phaseRank] at this
    omega
  have hfin2 : (raceRun q1 q2 sched { tbl := tbl0, ph1 := .start, ph2 := .start }).ph2 =
      .finished := by
    refine phase_finished_of_rank _ ?_
    have := hprog.2
    simp only [phaseRank] at this
    omega
  exact ⟨hfin1, hfin2, hinv.2.1 (Or.inr hfin1)⟩

/-- Requests used by the C4 witness: two first events for session new_sess. -/
def raceReq1 : CollectReq :=
  { shopId := 1, sid := "new_sess", visitor := none, ts := 100, ip := none,
    ua := none, ref := none }

/-- Second racing request, with a different timestamp. -/
def raceReq2 : CollectReq :=
  { shopId := 1, sid := "new_sess", visitor := none, ts := 101, ip := none,
    ua := none, ref := none }

/-- Witness for C4: a fully interleaved schedule of the two requests ends
with both finished and exactly one new_sess row. -/
theorem concurrent_first_insert_witness :
    raceReq1.sid = "new_sess" ∧ raceReq2.sid = "new_sess" ∧
    sessionsCount [] "new_sess" = 0 ∧
    3 ≤ ([true, false, true, false, true, false] : List Bool).count true ∧
    3 ≤ ([true, false, true, false, true, false] : List Bool).count false ∧
    sessionsCount
      (raceRun raceReq1 raceReq2 [true, false, true, false, true, false]
        { tbl := [], ph1 := .start, ph2 := .start }).tbl "new_sess" = 1 :=
  ⟨by decide, by decide, by decide, by decide, by decide,
   (concurrent_first_insert raceReq1 raceReq2 "new_sess" (by decide) (by decide)
     [] (by decide) [true, false, true, false, true, false]
     (by decide) (by decide)).2.2⟩

/-! ### C9: leader-tab election (part_007 lines 243-307, part_006 lines 40-86)

The lease lives in localStorage under ecomxtrade_leader_tab (holder id) and
ecomxtrade_leader_timestamp (last renewal).  Each tab keeps a leaderTabId
variable and an isLeader flag.  initializeLeaderTab claims the lease when it
is absent, incomplete or stale; checkLeaderStatus runs on the heartbeat tick:
a leader whose id still matches refreshes the timestamp, a leader whose id no
longer matches demotes itself, and a follower promotes via
initializeLeaderTab only when the lease is absent or stale (a recorded
leader with a missing timestamp parses as NaN and never compares stale). -/

/-- Shared localStorage lease. -/
structure LeaderStore where
  leader : Option String
  stamp : Option Int
deriving Repr, DecidableEq

/-- Per-tab state: the tab's leaderTabId variable and isLeader flag. -/
structure TabState where
  leaderTabId : Option String
  isLeader : Bool
deriving Repr, DecidableEq

/-- Guard of initializeLeaderTab: no leader recorded, no timestamp recorded,
or the recorded timestamp older than 30 s. -/
def initGuard (st : LeaderStore) (now : Int) : Bool :=
  match st.leader, st.stamp with
  | none, _ => true
  | some _, none => true
  | some _, some s => decide (LEADER_STALE_MS < now - s)

/-- initializeLeaderTab: claim the lease under a fresh tab id when the guard
holds, else follow the recorded leader. -/
def initializeLeaderTab (st : LeaderStore) (freshId : String) (now : Int) :
    LeaderStore × TabState :=
  if initGuard st now then
    ({ leader := some freshId, stamp := some now },
     { leaderTabId := some freshId, isLeader := true })
  else
    (st, { leaderTabId := st.leader, isLeader := false })

/-- Promotion guard inside checkLeaderStatus: no recorded leader, or a
recorded timestamp older than 30 s; a missing timestamp under a recorded
leader compares as NaN and is not stale. -/
def promoteGuard (st : LeaderStore) (now : Int) : Bool :=
  match st.leader with
  | none => true
  | some _ =>
      match st.stamp with
      | some s => decide (LEADER_STALE_MS < now - s)
      | none => false

/-- checkLeaderStatus, run on every heartbeat tick of every open tab. -/
def checkLeaderStatus (st : LeaderStore) (tab : TabState) (freshId : String)
    (now : Int) : LeaderStore × TabState :=
  if tab.isLeader && (st.leader == tab.leaderTabId) then
    ({ st with stamp := some now }, tab)
  else if tab.isLeader && !(st.leader == tab.leaderTabId) then
    (st, { tab with isLeader := false })
  else if !tab.isLeader && promoteGuard st now then
    initializeLeaderTab st freshId now
  else
    (st, tab)

/-- All same-shop tabs of one browser plus the shared lease. -/
structure TabSystem where
  store : LeaderStore
  tabs : List TabState
deriving Repr, DecidableEq

/-- One scheduled tick: which tab runs checkLeaderStatus, the fresh id it
would adopt on promotion, and the wall-clock time. -/
structure SchedStep where
  tab : Nat
  freshId : String
  now : Int
deriving Repr, DecidableEq

/-- Run one scheduled tick (a tick of an unknown tab index is a no-op). -/
def sysStep (sys : TabSystem) (s : SchedStep) : TabSystem :=
  match sys.tabs[s.tab]? with
  | none => sys
  | some t =>
      { store := (checkLeaderStatus sys.store t s.freshId s.now).1,
        tabs := sys.tabs.set s.tab (checkLeaderStatus sys.store t s.freshId s.now).2 }

/-- Run a whole schedule. -/
def sysRun : List SchedStep → TabSystem → TabSystem
  | [], sys => sys
  | s :: ss, sys => sysRun ss (sysStep sys s)

/-- No-churn timing condition of the settling period: every tick happens
within the 30 s staleness threshold of the lease timestamp current at that
tick (the leader's own refreshes keep extending it). -/
def schedFresh : List SchedStep → TabSystem → Bool
  | [], _ => true
  | s :: ss, sys =>
      (match sys.store.stamp with
       | some t0 => decide (s.now - t0 ≤ LEADER_STALE_MS)
       | none => false) && schedFresh ss (sysStep sys s)

/-- Every open tab ticks at least once during the schedule. -/
def schedCovers (sched : List SchedStep) (n : Nat) : Bool :=
  (List.range n).all (fun j => sched.any (fun s => s.tab == j))

/-- Settled lease: tab number lead holds the lease under id L, the renewal
timestamp is present, and no OTHER tab is in the Leader state under the same
id L.  Followers of the current leader (leaderTabId = some L with isLeader =
false, as the follow branch of initializeLeaderTab sets them) are allowed;
only a second self-believed leader carrying the very id L is excluded, which
cannot arise in the code because a tab in the Leader state carries the fresh
id it wrote itself when it claimed the lease. -/
def goodBase (sys : TabSystem) (lead : Nat) (L : String) : Prop :=
  sys.store.leader = some L ∧
  (∃ t0, sys.store.stamp = some t0) ∧
  sys.tabs[lead]? = some { leaderTabId := some L, isLeader := true } ∧
  (∀ j t, j ≠ lead → sys.tabs[j]? = some t → t.isLeader = true →
    t.leaderTabId ≠ some L)

theorem checkLeaderStatus_refresh (st : LeaderStore) (tab : TabState)
    (f : String) (now : Int) (hl : tab.isLeader = true)
    (hm : st.leader = tab.leaderTabId) :
    checkLeaderStatus st tab f now = ({ st with stamp := some now }, tab) := by
  unfold checkLeaderStatus
  rw [if_pos (by simp [hl, hm])]

theorem checkLeaderStatus_demote (st : LeaderStore) (tab : TabState)
    (f : String) (now : Int) (hl : tab.isLeader = true)
    (hm : ¬ st.leader = tab.leaderTabId) :
    checkLeaderStatus st tab f now = (st, { tab with isLeader := false }) := by
  unfold checkLeaderStatus
  rw [if_neg (by simp [hm]), if_pos (by simp [hl, hm])]

theorem checkLeaderStatus_follower_noop (st : LeaderStore) (tab : TabState)
    (f : String) (now : Int) (hl : tab.isLeader = false)
    (hp : promoteGuard st now = false) :
    checkLeaderStatus st tab f now = (st, tab) := by
  unfold checkLeaderStatus
  rw [if_neg (by simp [hl]), if_neg (by simp [hl]), if_neg (by simp [hl, hp])]

theorem promoteGuard_false_of_fresh (st : LeaderStore) (now : Int) (L : String)
    (t0 : Int) (hLs : st.leader = some L) (hst : st.stamp = some t0)
    (hfresh : now - t0 ≤ LEADER_STALE_MS) : promoteGuard st now = false := by
  unfold promoteGuard
  rw [hLs, hst]
  simp
  omega

theorem sysStep_settled (sys : TabSystem) (s : SchedStep) (lead : Nat) (L : String)
    (hgb : goodBase sys lead L)
    (hfresh : ∀ t0, sys.store.stamp = some t0 → s.now - t0 ≤ LEADER_STALE_MS) :
    goodBase (sysStep sys s) lead L ∧
    (∀ j, j ≠ s.tab → (sysStep sys s).tabs[j]? = sys.tabs[j]?) ∧
    (s.tab ≠ lead → ∀ t2, (sysStep sys s).tabs[s.tab]? = some t2 →
      t2.isLeader = false) := by
  obtain ⟨hL, ⟨t0, hst⟩, hlead, hothers⟩ := hgb
  cases hget : sys.tabs[s.tab]? with
  | none =>
      have hstep : sysStep sys s = sys := by
        unfold sysStep
        rw [hget]
      rw [hstep]
      exact ⟨⟨hL, ⟨t0, hst⟩, hlead, hothers⟩, fun j _ => rfl,
        fun _ t2 ht2 => absurd (hget ▸ ht2) (by simp)⟩
  | some t =>
      have hlen : s.tab < sys.tabs.length := by
        rcases List.getElem?_eq_some_iff.mp hget with ⟨h, _⟩
        exact h
      by_cases hsl : s.tab = lead
      · subst hsl
        have hteq : t = { leaderTabId := some L, isLeader := true } :=
          Option.some.inj (hget.symm.trans hlead)
        have hchk := checkLeaderStatus_refresh sys.store t s.freshId s.now
          (by rw [hteq]) (by rw [hteq, hL])
        have hstep : sysStep sys s =
            { store := { sys.store with stamp := some s.now },
              tabs := sys.tabs.set s.tab t } := by
          simp only [sysStep, hget, hchk]
        rw [hstep]
        refine ⟨⟨hL, ⟨s.now, rfl⟩, ?_, ?_⟩, fun j hj => ?_, fun hne => absurd rfl hne⟩
        · rw [List.getElem?_set_self hlen, hteq]
        · intro j t2 hj ht2
          rw [List.getElem?_set_ne (fun he => hj he.symm)] at ht2
          exact hothers j t2 hj ht2
        · exact List.getElem?_set_ne (fun he => hj he.symm)
      · cases hil : t.isLeader with
        | true =>
            have hoth : t.leaderTabId ≠ some L := hothers s.tab t hsl hget hil
            have hm : ¬ sys.store.leader = t.leaderTabId := by
              rw [hL]
              exact fun he => hoth he.symm
            have hchk := checkLeaderStatus_demote sys.store t s.freshId s.now hil hm
            have hstep : sysStep sys s =
                { store := sys.store,
                  tabs := sys.tabs.set s.tab { t with isLeader := false } } := by
              simp only [sysStep, hget, hchk]
            rw [hstep]
            refine ⟨⟨hL, ⟨t0, hst⟩, ?_, ?_⟩, fun j hj => ?_, fun _ t2 ht2 => ?_⟩
            · rw [List.getElem?_set_ne hsl]
              exact hlead
            · intro j t2 hj ht2 hil2
              by_cases hjs : j = s.tab
              · subst hjs
                rw [List.getElem?_set_self hlen] at ht2
                rw [← Option.some.inj ht2] at hil2
                simp at hil2
              · rw [List.getElem?_set_ne (fun he => hjs he.symm)] at ht2
                exact hothers j t2 hj ht2 hil2
            · exact List.getElem?_set_ne (fun he => hj he.symm)
            · rw [List.getElem?_set_self hlen] at ht2
              have := Option.some.inj ht2
              rw [← this]
        | false =>
            have hpg : promoteGuard sys.store s.now = false :=
              promoteGuard_false_of_fresh sys.store s.now L t0 hL hst (hfresh t0 hst)
            have hchk := checkLeaderStatus_follower_noop sys.store t s.freshId s.now hil hpg
            have hstep : sysStep sys s =
                { store := sys.store, tabs := sys.tabs.set s.tab t } := by
              simp only [sysStep, hget, hchk]
            rw [hstep]
            refine ⟨⟨hL, ⟨t0, hst⟩, ?_, ?_⟩, fun j hj => ?_, fun _ t2 ht2 => ?_⟩
            · rw [List.getElem?_set_ne hsl]
              exact hlead
            · intro j t2 hj ht2 hil2
              by_cases hjs : j = s.tab
              · subst hjs
                rw [List.getElem?_set_self hlen] at ht2
                rw [← Option.some.inj ht2] at hil2
                rw [hil] at hil2
                cases hil2
              · rw [List.getElem?_set_ne (fun he => hjs he.symm)] at ht2
                exact hothers j t2 hj ht2 hil2
            · exact List.getElem?_set_ne (fun he => hj he.symm)
            · rw [List.getElem?_set_self hlen] at ht2
              have := Option.some.inj ht2
              rw [← this]
              exact hil

theorem settle_aux (lead : Nat) (L : String) :
    ∀ (sched : List SchedStep) (sys : TabSystem) (done : Nat → Prop),
      goodBase sys lead L →
      schedFresh sched sys = true →
      (∀ j, done j → j ≠ lead → ∀ t, sys.tabs[j]? = some t → t.isLeader = false) →
      goodBase (sysRun sched sys) lead L ∧
      (∀ j, (done j ∨ ∃ s ∈ sched, s.tab = j) → j ≠ lead →
        ∀ t, (sysRun sched sys).tabs[j]? = some t → t.isLeader = false) := by
  intro sched
  induction sched with
  | nil =>
      intro sys done hgb _ hdone
      refine ⟨hgb, fun j hj hne t ht => ?_⟩
      rcases hj with hj | ⟨s, hs, _⟩
      · exact hdone j hj hne t ht
      · cases hs
  | cons s ss ih =>
      intro sys done hgb hfresh hdone
      have hfr : (match sys.store.stamp with
          | some t0 => decide (s.now - t0 ≤ LEADER_STALE_MS)
          | none => false) = true ∧ schedFresh ss (sysStep sys s) = true := by
        simpa [schedFresh, Bool.and_eq_true] using hfresh
      have hfresh1 : ∀ t0, sys.store.stamp = some t0 → s.now - t0 ≤ LEADER_STALE_MS := by
        intro t0 h0
        have hh := hfr.1
        rw [h0] at hh
        simpa using hh
      have hstep := sysStep_settled sys s lead L hgb hfresh1
      have hdone2 : ∀ j, (done j ∨ j = s.tab) → j ≠ lead →
          ∀ t, (sysStep sys s).tabs[j]? = some t → t.isLeader = false := by
        intro j hj hne t ht
        rcases hj with hj | rfl
        · by_cases hjs : j = s.tab
          · subst hjs
            exact hstep.2.2 hne t ht
          · rw [hstep.2.1 j hjs] at ht
            exact hdone j hj hne t ht
        · exact hstep.2.2 hne t ht
      have hmain := ih (sysStep sys s) (fun j => done j ∨ j = s.tab)
        hstep.1 hfr.2 hdone2
      refine ⟨hmain.1, fun j hj hne t ht => ?_⟩
      refine hmain.2 j ?_ hne t ht
      rcases hj with hj | ⟨s2, hs2, htab⟩
      · exact Or.inl (Or.inl hj)
      · rcases List.mem_cons.mp hs2 with rfl | hs2
        · exact Or.inl (Or.inr htab.symm)
        · exact Or.inr ⟨s2, hs2, htab⟩

theorem leaders_count_one (tabs : List TabState) (lead : Nat)
    (hl : ∃ t, tabs[lead]? = some t ∧ t.isLeader = true)
    (ho : ∀ j t, j ≠ lead → tabs[j]? = some t → t.isLeader = false) :
    (tabs.filter (fun t => t.isLeader)).length = 1 := by
  induction tabs generalizing lead with
  | nil =>
      obtain ⟨t, ht, _⟩ := hl
      simp at ht
  | cons t ts ihc =>
      cases lead with
      | zero =>
          obtain ⟨t2, ht2, hil⟩ := hl
          rw [List.getElem?_cons_zero] at ht2
          obtain rfl : t = t2 := Option.some.inj ht2
          have hts : ts.filter (fun x => x.isLeader) = [] := by
            rw [List.filter_eq_nil_iff]
            intro a ha
            obtain ⟨n, hn⟩ := List.getElem?_of_mem ha
            have hfalse := ho (n + 1) a (Nat.succ_ne_zero n) (by simpa using hn)
            simp [hfalse]
          rw [List.filter_cons, if_pos (by simp [hil]), hts]
          rfl
      | succ k =>
          have h0 : t.isLeader = false :=
            ho 0 t (Ne.symm (Nat.succ_ne_zero k)) List.getElem?_cons_zero
          rw [List.filter_cons, if_neg (by simp [h0])]
          refine ihc k ?_ ?_
          · obtain ⟨t2, ht2, hil⟩ := hl
            exact ⟨t2, by simpa using ht2, hil⟩
          · intro j t2 hj ht2
            exact ho (j + 1) t2 (fun he => hj (Nat.succ_injective he))
              (by simpa using ht2)

theorem sysRun_tabs_length (sched : List SchedStep) :
    ∀ sys : TabSystem, (sysRun sched sys).tabs.length = sys.tabs.length := by
  induction sched with
  | nil => exact fun _ => rfl
  | cons s ss ih =>
      intro sys
      rw [show sysRun (s :: ss) sys = sysRun ss (sysStep sys s) from rfl, ih]
      cases hget : sys.tabs[s.tab]? with
      | none =>
          unfold sysStep
          rw [hget]
      | some t =>
          unfold sysStep
          rw [hget]
          exact List.length_set sys.tabs s.tab _

/-- C9: (i) a tab becomes leader through initializeLeaderTab only when no
lease is recorded (holder or renewal timestamp missing) or the recorded
renewal timestamp is more than 30 s old; (ii) a follower promotes through
checkLeaderStatus only when no holder is recorded or the recorded timestamp
is more than 30 s old; (iii) settling: when the lease is held by an open tab
(followers of that leader and stale self-believed leaders under other ids
are both allowed among the remaining tabs), every tick of the schedule stays
within the 30 s staleness threshold of the current lease timestamp (no
churn), and every open tab runs checkLeaderStatus at least once, then
exactly one tab of the system ends in the Leader state. -/
theorem leader_election_single_emitter :
    (∀ (st : LeaderStore) (f : String) (now : Int),
      (initializeLeaderTab st f now).2.isLeader = true →
      st.leader = none ∨ st.stamp = none ∨
        ∃ s, st.stamp = some s ∧ LEADER_STALE_MS < now - s) ∧
    (∀ (st : LeaderStore) (tab : TabState) (f : String) (now : Int),
      tab.isLeader = false →
      (checkLeaderStatus st tab f now).2.isLeader = true →
      st.leader = none ∨ ∃ s, st.stamp = some s ∧ LEADER_STALE_MS < now - s) ∧
    (∀ (sys : TabSystem) (lead : Nat) (L : String) (sched : List SchedStep),
      goodBase sys lead L →
      schedFresh sched sys = true →
      schedCovers sched sys.tabs.length = true →
      ((sysRun sched sys).tabs.filter (fun t => t.isLeader)).length = 1) := by
  refine ⟨?_, ?_, ?_⟩
  · intro st f now hl
    by_cases hg : initGuard st now = true
    · unfold initGuard at hg
      cases hsl : st.leader with
      | none => exact Or.inl rfl
      | some x =>
          cases hst : st.stamp with
          | none => exact Or.inr (Or.inl rfl)
          | some s =>
              rw [hsl, hst] at hg
              exact Or.inr (Or.inr ⟨s, rfl, by simpa using hg⟩)
    · unfold initializeLeaderTab at hl
      rw [if_neg hg] at hl
      simp at hl
  · intro st tab f now hnl hl
    unfold checkLeaderStatus at hl
    rw [hnl] at hl
    simp only [Bool.false_and, Bool.not_false, Bool.true_and, if_false] at hl
    by_cases hp : promoteGuard st now = true
    · unfold promoteGuard at hp
      cases hsl : st.leader with
      | none => exact Or.inl rfl
      | some x =>
          cases hst : st.stamp with
          | none =>
              rw [hsl, hst] at hp
              cases hp
          | some s =>
              rw [hsl, hst] at hp
              exact Or.inr ⟨s, rfl, by simpa using hp⟩
    · simp [hp] at hl
      rw [hnl] at hl
      cases hl
  · intro sys lead L sched hgb hfresh hcov
    have hmain := settle_aux lead L sched sys (fun _ => False) hgb hfresh
      (fun j hj => absurd hj (by simp))
    refine leaders_count_one (sysRun sched sys).tabs lead
      ⟨{ leaderTabId := some L, isLeader := true }, hmain.1.2.2.1, rfl⟩ ?_
    intro j t hj ht
    have hjlen : j < sys.tabs.length := by
      rcases List.getElem?_eq_some_iff.mp ht with ⟨h, _⟩
      rw [sysRun_tabs_length sched sys] at h
      exact h
    have hjmem : ∃ s ∈ sched, s.tab = j := by
      have hall := List.all_eq_true.mp hcov j (List.mem_range.mpr hjlen)
      obtain ⟨s, hs, hsj⟩ := List.any_eq_true.mp hall
      exact ⟨s, hs, by simpa using hsj⟩
    exact hmain.2 j (Or.inr hjmem) hj t ht

/-- Three-tab system used by the C9 witness: tab 0 holds the lease as tabA,
tab 1 is an ordinary follower of tabA (leaderTabId = tabA, not leader), and
tab 2 stale-believes it is leader under its own id tabB. -/
def settleSys : TabSystem :=
  { store := { leader := some "tabA", stamp := some 0 },
    tabs := [{ leaderTabId := some "tabA", isLeader := true },
             { leaderTabId := some "tabA", isLeader := false },
             { leaderTabId := some "tabB", isLeader := true }] }

/-- Schedule used by the C9 witness: tab 1 ticks at 1 s, tab 2 at 1.5 s,
tab 0 at 2 s. -/
def settleSched : List SchedStep :=
  [{ tab := 1, freshId := "f1", now := 1000 },
   { tab := 2, freshId := "f2", now := 1500 },
   { tab := 0, freshId := "f0", now := 2000 }]

/-- Witness for C9: after one covered, fresh round of checkLeaderStatus
ticks over the leader, its follower and a stale self-believed leader,
exactly one of the three tabs is in the Leader state. -/
theorem leader_election_single_emitter_witness :
    goodBase settleSys 0 "tabA" ∧
    schedFresh settleSched settleSys = true ∧
    schedCovers settleSched settleSys.tabs.length = true ∧
    ((sysRun settleSched settleSys).tabs.filter (fun t => t.isLeader)).length = 1 := by
  have hgb : goodBase settleSys 0 "tabA" := by
    refine ⟨rfl, ⟨0, rfl⟩, by decide, ?_⟩
    intro j t hj ht hil
    match j with
    | 0 => exact absurd rfl hj
    | 1 =>
        have h1 : settleSys.tabs[1]? =
            some { leaderTabId := some "tabA", isLeader := false } := by decide
        rw [h1] at ht
        rw [← Option.some.inj ht] at hil
        exact absurd hil (by decide)
    | 2 =>
        have h2 : settleSys.tabs[2]? =
            some { leaderTabId := some "tabB", isLeader := true } := by decide
        rw [h2] at ht
        rw [← Option.some.inj ht]
        decide
    | n + 3 =>
        have hnone : settleSys.tabs[n + 3]? = none :=
          List.getElem?_eq_none (by show 3 ≤ n + 3; omega)
        rw [hnone] at ht
        cases ht
  exact ⟨hgb, by decide, by decide,
    leader_election_single_emitter.2.2 settleSys 0 "tabA" settleSched hgb
      (by decide) (by decide)⟩

end HrlTracking
